import Mathlib

/-!
# BookSim network core (`networks/network.cc`) and `random_utils.cc`

A shallow embedding of `BSNetwork` (construction, allocation, the phased tick,
boundary I/O, the topology factory, destruction, the channel-map export) and of
the random-state snapshot helpers.

Conventions of the embedding.

* C++ `int` values are `Int`; none of the embedded code does arithmetic that
  could overflow (loop counters stay below a bound that is itself an `int`).
* Heap objects live in `Sim.heap`; an address is an index into it, a pointer is
  an `Option Addr` (`none` is `NULL`), `new` appends a cell, `delete` empties it.
* A `std::vector` is a `List`.  `v.resize(n)` with a negative `int` converts
  `n` to a `size_t` above `max_size()` and throws `std::length_error`.
* Outcomes other than normal return are explicit: a failed `assert`, the
  `std::length_error` above, `Error(...)`, and undefined behaviour
  (indexing a vector out of range, dereferencing a null or dead pointer,
  deleting a dead object).
* Code outside the two source files enters as a parameter: the behaviour of
  the clocked components and channels (`Ext`) and the concrete topology
  classes (`Topologies`).
* An output stream is the list of the items written to it with `<<`.
-/

namespace Booksim

/-! ## Heap objects -/

/-- Address of a heap object. -/
abbrev Addr := Nat

/-- A C++ pointer: `none` is `NULL`. -/
abbrev Ptr := Option Addr

/-- Modelled from the spec: the `FlitChannel` class (flitchannel.hh is not among
the sources).  Only what `network.cc` touches is kept: the module name, the
class count, and the two endpoints `(router, port)` with their accessors
`SetSource`/`SetSink`/`GetSource`/`GetSourcePort`/`GetSink`/`GetSinkPort`.
An endpoint that was never set is "left open": a null router and port `-1`. -/
structure FlitChannel where
  name : String
  classes : Int
  routerSource : Ptr
  routerSourcePort : Int
  routerSink : Ptr
  routerSinkPort : Int
deriving DecidableEq, Repr

/-- The constructor call `new FlitChannel(parent, name, classes)`: both endpoints open. -/
def FlitChannel.new (name : String) (classes : Int) : FlitChannel :=
  { name := name, classes := classes,
    routerSource := none, routerSourcePort := -1,
    routerSink := none, routerSinkPort := -1 }

/-- The setter `FlitChannel::SetSource(router, port)`. -/
def FlitChannel.SetSource (c : FlitChannel) (router : Ptr) (port : Int) : FlitChannel :=
  { c with routerSource := router, routerSourcePort := port }

/-- The setter `FlitChannel::SetSink(router, port)`. -/
def FlitChannel.SetSink (c : FlitChannel) (router : Ptr) (port : Int) : FlitChannel :=
  { c with routerSink := router, routerSinkPort := port }

/-- Every object `network.cc` creates, deletes or calls into.  All four are
`TimedModule`s.  A router is known to the core only through `GetID()`. -/
inductive Obj where
  | flitChannel (c : FlitChannel)
  | creditChannel (name : String)
  | handshakeChannel (name : String)
  | router (id : Int)
deriving DecidableEq, Repr

/-! ## Network state -/

/-- The members of `BSNetwork` together with the heap its pointers refer to and
the global `gNodes`. -/
structure Sim where
  heap : List (Option Obj)
  gNodes : Int
  name : String
  _size : Int
  _nodes : Int
  _channels : Int
  _classes : Int
  _fabric_manager : Int
  _off_cores : List Int
  _off_routers : List Int
  _core_states : List Bool
  _router_states : List Bool
  _routers : List Ptr
  _inject : List Ptr
  _inject_cred : List Ptr
  _eject : List Ptr
  _eject_cred : List Ptr
  _chan : List Ptr
  _chan_cred : List Ptr
  _chan_handshake : List Ptr
  _timed_modules : List Ptr
deriving DecidableEq, Repr

/-- How a call ends. -/
inductive Outcome (α : Type) where
  /-- Normal return. -/
  | ok (a : α)
  /-- A failed `assert(...)`: the process aborts. -/
  | assertFail
  /-- The `std::length_error` thrown by `resize` with a negative count; `reached` is the
  state at the throw. -/
  | lengthError (reached : Sim)
  /-- Undefined behaviour. -/
  | undefined
  /-- The call `Error(msg)`: report and terminate. -/
  | fatal (msg : String)
deriving DecidableEq, Repr

/-- Sequencing of two calls: the second runs only if the first returned. -/
def Outcome.bind {α β : Type} (x : Outcome α) (f : α → Outcome β) : Outcome β :=
  match x with
  | .ok a => f a
  | .assertFail => .assertFail
  | .lengthError r => .lengthError r
  | .undefined => .undefined
  | .fatal m => .fatal m

/-- The configuration lookups `network.cc` performs (`GetInt`, `GetStr`, `GetIntArray`). -/
structure Configuration where
  classes : Int
  fabric_manager : Int
  sim_type : String
  off_cores : List Int
  off_routers : List Int
  topology : String
  link_failures : Int
deriving DecidableEq, Repr

/-! ## Vectors and loops -/

/-- The call `v.resize(n, fill)` with `n` an `int`: `none` is the `std::length_error`
of a negative `n`. -/
def vresize {α : Type} (v : List α) (n : Int) (fill : α) : Option (List α) :=
  if n < 0 then none
  else some (v.take n.toNat ++ List.replicate (n.toNat - v.length) fill)

/-- The assignment `v[i] = x` with `i` an `int`: `none` when `i` is not an index of `v`. -/
def vassign {α : Type} (v : List α) (i : Int) (x : α) : Option (List α) :=
  if 0 ≤ i ∧ i < (v.length : Int) then some (v.set i.toNat x) else none

/-- The read `v[i]` with `i` a loop counter: `none` when `i` is not an index of `v`. -/
def vindex {α : Type} (v : List α) (i : Nat) : Option α := v[i]?

/-- The loop `for (int i = start; i < start + k; ++i) body(i)`. -/
def forRange {σ : Type} : Nat → Nat → (Nat → σ → σ) → σ → σ
  | 0, _, _, s => s
  | k + 1, i, body, s => forRange k (i + 1) body (body i s)

/-- The same loop with a body that may fail. -/
def forRangeM {σ : Type} : Nat → Nat → (Nat → σ → Outcome σ) → σ → Outcome σ
  | 0, _, _, s => .ok s
  | k + 1, i, body, s =>
    match body i s with
    | .ok s1 => forRangeM k (i + 1) body s1
    | .assertFail => .assertFail
    | .lengthError r => .lengthError r
    | .undefined => .undefined
    | .fatal m => .fatal m

/-! ## random_utils.cc -/

/-- The macro `KK`. -/
def KK : Nat := 100

/-- A `double`, kept as its 64-bit pattern: the code only copies these values. -/
abbrev Double := Nat

/-- The generator arrays `ran_x` and `ran_u` (defined outside `random_utils.cc`). -/
structure RandomState where
  ran_x : List Int
  ran_u : List Double
deriving DecidableEq, Repr

/-- Modelled from the spec: the arrays `ran_x` and `ran_u` are declared `extern`
here; the spec gives them a fixed length, `KK` entries each. -/
def RandomState.WellFormed (g : RandomState) : Prop :=
  g.ran_x.length = KK ∧ g.ran_u.length = KK

instance (g : RandomState) : Decidable g.WellFormed := by
  unfold RandomState.WellFormed; infer_instance

/-- The call `std::copy(src.begin(), src.end(), dst)`: overwrite the front of `dst`. -/
def stdCopy {α : Type} (src dst : List α) : List α :=
  src ++ dst.drop src.length

/-- The function `SaveRandomState`: both vectors are assigned the first `KK` entries. -/
def SaveRandomState (g : RandomState) : RandomState × List Int × List Double :=
  (g, g.ran_x.take KK, g.ran_u.take KK)

/-- The function `RestoreRandomState`. -/
def RestoreRandomState (g : RandomState) (save_x : List Int) (save_u : List Double) :
    Outcome RandomState :=
  if save_x.length ≠ KK then .assertFail
  else
    let g1 := { g with ran_x := stdCopy save_x g.ran_x }
    if save_u.length ≠ KK then .assertFail
    else .ok { g1 with ran_u := stdCopy save_u g1.ran_u }

/-! ## Construction and allocation -/

/-- The constructor `BSNetwork::BSNetwork(config, name)`, run on the heap `heap`
with the global `gNodes`.  Every vector member starts empty. -/
def BSNetwork.ctor (heap : List (Option Obj)) (gNodes : Int) (config : Configuration)
    (name : String) : Outcome Sim :=
  let _fabric_manager := config.fabric_manager
  let type := config.sim_type
  if (_fabric_manager ≥ 0 ∧ type = "rp") ∨ _fabric_manager < 0 then
    .ok { heap := heap, gNodes := gNodes, name := name,
          _size := -1, _nodes := -1, _channels := -1,
          _classes := config.classes,
          _fabric_manager := _fabric_manager,
          _off_cores := config.off_cores,
          _off_routers := config.off_routers,
          _core_states := [], _router_states := [], _routers := [],
          _inject := [], _inject_cred := [], _eject := [], _eject_cred := [],
          _chan := [], _chan_cred := [], _chan_handshake := [],
          _timed_modules := [] }
  else .assertFail

/-- The expression `new T(...)`: the object gets the next free address. -/
def Sim.new (w : Sim) (o : Obj) : Sim × Addr :=
  ({ w with heap := w.heap ++ [some o] }, w.heap.length)

/-- The loops of `_Alloc` over an off-list: `states[id] = false` for each listed id, in
order; `none` as soon as an id is not an index of `states`. -/
def applyOffList : List Int → List Bool → Option (List Bool)
  | [], states => some states
  | id :: rest, states =>
    match vassign states id false with
    | none => none
    | some states1 => applyOffList rest states1

/-- Body of the ingress loop of `_Alloc` (iteration `s`). -/
def allocIngress (s : Nat) (w : Sim) : Sim :=
  let (w, fchan) := w.new
    (.flitChannel ((FlitChannel.new (w.name ++ "_fchan_ingress" ++ toString s) w._classes).SetSource
      none s))
  let w := { w with _inject := w._inject.set s (some fchan) }
  let w := { w with _timed_modules := w._timed_modules ++ [some fchan] }
  let (w, cchan) := w.new (.creditChannel (w.name ++ "_cchan_ingress" ++ toString s))
  let w := { w with _inject_cred := w._inject_cred.set s (some cchan) }
  { w with _timed_modules := w._timed_modules ++ [some cchan] }

/-- Body of the egress loop of `_Alloc` (iteration `d`). -/
def allocEgress (d : Nat) (w : Sim) : Sim :=
  let (w, fchan) := w.new
    (.flitChannel ((FlitChannel.new (w.name ++ "_fchan_egress" ++ toString d) w._classes).SetSink
      none d))
  let w := { w with _eject := w._eject.set d (some fchan) }
  let w := { w with _timed_modules := w._timed_modules ++ [some fchan] }
  let (w, cchan) := w.new (.creditChannel (w.name ++ "_cchan_egress" ++ toString d))
  let w := { w with _eject_cred := w._eject_cred.set d (some cchan) }
  { w with _timed_modules := w._timed_modules ++ [some cchan] }

/-- Body of the internal-channel loop of `_Alloc` (iteration `c`). -/
def allocChan (c : Nat) (w : Sim) : Sim :=
  let (w, fchan) := w.new
    (.flitChannel (FlitChannel.new (w.name ++ "_fchan_" ++ toString c) w._classes))
  let w := { w with _chan := w._chan.set c (some fchan) }
  let w := { w with _timed_modules := w._timed_modules ++ [some fchan] }
  let (w, cchan) := w.new (.creditChannel (w.name ++ "_cchan_" ++ toString c))
  let w := { w with _chan_cred := w._chan_cred.set c (some cchan) }
  let w := { w with _timed_modules := w._timed_modules ++ [some cchan] }
  let (w, hchan) := w.new (.handshakeChannel (w.name ++ "_hchan_" ++ toString c))
  let w := { w with _chan_handshake := w._chan_handshake.set c (some hchan) }
  { w with _timed_modules := w._timed_modules ++ [some hchan] }

/-- Lines 196-216 of `_Alloc`: the internal channels. -/
def allocInternalPart (w : Sim) : Outcome Sim :=
  match vresize w._chan w._channels none with
  | none => .lengthError w
  | some v =>
  let w := { w with _chan := v }
  match vresize w._chan_cred w._channels none with
  | none => .lengthError w
  | some v =>
  let w := { w with _chan_cred := v }
  match vresize w._chan_handshake w._channels none with
  | none => .lengthError w
  | some v =>
  let w := { w with _chan_handshake := v }
  .ok (forRange w._channels.toNat 0 allocChan w)

/-- Lines 183-195 of `_Alloc`: the egress links, then the internal part. -/
def allocEgressPart (w : Sim) : Outcome Sim :=
  match vresize w._eject w._nodes none with
  | none => .lengthError w
  | some v =>
  let w := { w with _eject := v }
  match vresize w._eject_cred w._nodes none with
  | none => .lengthError w
  | some v =>
  let w := { w with _eject_cred := v }
  allocInternalPart (forRange w._nodes.toNat 0 allocEgress w)

/-- Lines 170-182 of `_Alloc`: the ingress links, then the rest. -/
def allocLinks (w : Sim) : Outcome Sim :=
  match vresize w._inject w._nodes none with
  | none => .lengthError w
  | some v =>
  let w := { w with _inject := v }
  match vresize w._inject_cred w._nodes none with
  | none => .lengthError w
  | some v =>
  let w := { w with _inject_cred := v }
  allocEgressPart (forRange w._nodes.toNat 0 allocIngress w)

/-- Lines 150-162 of `_Alloc`: the power-gate vectors, then the links. -/
def allocPowerGate (w : Sim) : Outcome Sim :=
  match vresize w._core_states w._size true with
  | none => .lengthError w
  | some v =>
  let w := { w with _core_states := v }
  match vresize w._router_states w._size true with
  | none => .lengthError w
  | some v =>
  let w := { w with _router_states := v }
  match applyOffList w._off_cores w._core_states with
  | none => .undefined
  | some v =>
  let w := { w with _core_states := v }
  match applyOffList w._off_routers w._router_states with
  | none => .undefined
  | some v =>
  let w := { w with _router_states := v }
  allocLinks w

/-- The method `BSNetwork::_Alloc`. -/
def _Alloc (w : Sim) : Outcome Sim :=
  if ¬ (w._size ≠ -1 ∧ w._nodes ≠ -1 ∧ w._channels ≠ -1) then .assertFail
  else
    match vresize w._routers w._size none with
    | none => .lengthError w
    | some v =>
    let w := { w with _routers := v }
    let w := { w with gNodes := w._nodes }
    allocPowerGate w

/-- What a concrete topology does between the base constructor and `_Alloc`: it sets the
three counts. -/
def Sim.setSizes (w : Sim) (size nodes channels : Int) : Sim :=
  { w with _size := size, _nodes := nodes, _channels := channels }

/-! ## The phased tick -/

/-- The four phases of a tick. -/
inductive Phase where
  | ReadInputs
  | PowerStateEvaluate
  | Evaluate
  | WriteOutputs
deriving DecidableEq, Repr

/-- Modelled from the spec: the implementations behind the virtual calls the core makes
(`TimedModule::ReadInputs` and the other phases, `Channel::Send`, `Channel::Receive`) are
not among the sources.  Each acts on the object it is called on; a payload (`Flit *`,
`Credit *`) is a pointer, and `Receive` returns `NULL` when nothing is waiting. -/
structure Ext where
  phase : Phase → Obj → Obj
  send : Obj → Ptr → Obj
  receive : Obj → Ptr × Obj

/-- One virtual call made by a tick pass: which object, which operation. -/
structure Call where
  target : Addr
  op : Phase
deriving DecidableEq, Repr

/-- The statement `(*iter)->op()`: the registered object runs `op`; the call is logged. -/
def callPhase (x : Ext) (op : Phase) (p : Ptr) (st : List (Option Obj) × List Call) :
    Outcome (List (Option Obj) × List Call) :=
  match p with
  | none => .undefined
  | some a =>
    match st.1[a]? with
    | some (some o) => .ok (st.1.set a (some (x.phase op o)), st.2 ++ [⟨a, op⟩])
    | _ => .undefined

/-- The loop `for (iter = _timed_modules.begin(); iter != _timed_modules.end(); ++iter)`. -/
def tickLoop (x : Ext) (op : Phase) :
    List Ptr → List (Option Obj) × List Call → Outcome (List (Option Obj) × List Call)
  | [], st => .ok st
  | p :: rest, st => (callPhase x op p st).bind (tickLoop x op rest)

/-- A whole pass: the four methods below differ only in the operation they call. -/
def tickPass (x : Ext) (op : Phase) (w : Sim) : Outcome (Sim × List Call) :=
  (tickLoop x op w._timed_modules (w.heap, [])).bind fun st =>
    .ok ({ w with heap := st.1 }, st.2)

/-- The method `BSNetwork::ReadInputs`. -/
def ReadInputs (x : Ext) (w : Sim) : Outcome (Sim × List Call) := tickPass x .ReadInputs w

/-- The method `BSNetwork::PowerStateEvaluate`. -/
def PowerStateEvaluate (x : Ext) (w : Sim) : Outcome (Sim × List Call) :=
  tickPass x .PowerStateEvaluate w

/-- The method `BSNetwork::Evaluate`. -/
def Evaluate (x : Ext) (w : Sim) : Outcome (Sim × List Call) := tickPass x .Evaluate w

/-- The method `BSNetwork::WriteOutputs`. -/
def WriteOutputs (x : Ext) (w : Sim) : Outcome (Sim × List Call) := tickPass x .WriteOutputs w

/-! ## Boundary I/O -/

/-- The expression `v[i]->` with `i` an `int` that passed the range assertion: the object
behind entry `i`, `none` if `i` is not an index of `v` or the entry is null or dead. -/
def derefLink (w : Sim) (v : List Ptr) (i : Int) : Option (Addr × Obj) :=
  match vindex v i.toNat with
  | some (some a) =>
    match w.heap[a]? with
    | some (some o) => some (a, o)
    | _ => none
  | _ => none

/-- The method `BSNetwork::WriteFlit`. -/
def WriteFlit (x : Ext) (w : Sim) (f : Ptr) (source : Int) : Outcome Sim :=
  if ¬ (source ≥ 0 ∧ source < w._nodes) then .assertFail
  else
    match derefLink w w._inject source with
    | none => .undefined
    | some (a, o) => .ok { w with heap := w.heap.set a (some (x.send o f)) }

/-- The method `BSNetwork::ReadFlit`. -/
def ReadFlit (x : Ext) (w : Sim) (dest : Int) : Outcome (Sim × Ptr) :=
  if ¬ (dest ≥ 0 ∧ dest < w._nodes) then .assertFail
  else
    match derefLink w w._eject dest with
    | none => .undefined
    | some (a, o) => .ok ({ w with heap := w.heap.set a (some (x.receive o).2) }, (x.receive o).1)

/-- The method `BSNetwork::WriteCredit`. -/
def WriteCredit (x : Ext) (w : Sim) (c : Ptr) (dest : Int) : Outcome Sim :=
  if ¬ (dest ≥ 0 ∧ dest < w._nodes) then .assertFail
  else
    match derefLink w w._eject_cred dest with
    | none => .undefined
    | some (a, o) => .ok { w with heap := w.heap.set a (some (x.send o c)) }

/-- The method `BSNetwork::ReadCredit`. -/
def ReadCredit (x : Ext) (w : Sim) (source : Int) : Outcome (Sim × Ptr) :=
  if ¬ (source ≥ 0 ∧ source < w._nodes) then .assertFail
  else
    match derefLink w w._inject_cred source with
    | none => .undefined
    | some (a, o) => .ok ({ w with heap := w.heap.set a (some (x.receive o).2) }, (x.receive o).1)

/-! ## The factory and the fault hook -/

/-- Modelled from the spec: `Module::Error` (module.cc is not among the sources) reports
the message as a fatal error and does not return. -/
def Error {α : Type} (msg : String) : Outcome α := .fatal msg

/-- The method `BSNetwork::InsertRandomFaults` of the base class. -/
def BSNetwork.InsertRandomFaults (_w : Sim) (_config : Configuration) : Outcome Sim :=
  Error "InsertRandomFaults not implemented for this topology!"

/-- The concrete topology classes `New` can instantiate. -/
inductive TopologyClass where
  | KNCube
  | CMesh
  | KNFly
  | QTree
  | Tree4
  | FatTree
  | FlatFlyOnChip
  | AnyNet
  | DragonFlyNew
  | Gem5Net
deriving DecidableEq, Repr

/-- The concrete topology classes are not among the sources; they enter as parameters.
`build c mesh config name w` is what the constructor of class `c` does after the
base-class constructor returned `w` (`mesh` is the extra argument of `KNCube`);
`faults c` is the override of the virtual `InsertRandomFaults` in class `c`, `none` when
the class inherits the one of `BSNetwork`. -/
structure Topologies where
  build : TopologyClass → Option Bool → Configuration → String → Sim → Outcome Sim
  faults : TopologyClass → Option (Sim → Configuration → Outcome Sim)

/-- What `New` does that is visible from outside, in order. -/
inductive FactoryEvent where
  | registerRoutingFunctions (c : TopologyClass)
  | construct (c : TopologyClass) (mesh : Option Bool)
  | cerr (msg : String)
  | insertRandomFaults (c : TopologyClass)
deriving DecidableEq, Repr

/-- A constructed network: its dynamic class and its state. -/
structure Instance where
  cls : TopologyClass
  net : Sim
deriving DecidableEq, Repr

/-- The expression `new C(config, name)`: base-class constructor, then the one of the class. -/
def construct (env : Topologies) (heap : List (Option Obj)) (gNodes : Int)
    (c : TopologyClass) (mesh : Option Bool) (config : Configuration) (name : String) :
    Outcome Instance :=
  (BSNetwork.ctor heap gNodes config name).bind fun w =>
    (env.build c mesh config name w).bind fun w1 => .ok ⟨c, w1⟩

/-- One branch of `New`: `C::RegisterRoutingFunctions(); n = new C(config, name);`. -/
def New.branch (env : Topologies) (heap : List (Option Obj)) (gNodes : Int)
    (c : TopologyClass) (mesh : Option Bool) (config : Configuration) (name : String) :
    List FactoryEvent × Outcome (Option Instance) :=
  ([.registerRoutingFunctions c, .construct c mesh],
   (construct env heap gNodes c mesh config name).bind fun n => .ok (some n))

/-- The virtual call `n->InsertRandomFaults(config)`. -/
def Instance.InsertRandomFaults (env : Topologies) (n : Instance) (config : Configuration) :
    Outcome Sim :=
  match env.faults n.cls with
  | some f => f n.net config
  | none => BSNetwork.InsertRandomFaults n.net config

/-- The if-chain of `New` up to the fault hook: events so far and the pointer `n`. -/
def New.select (env : Topologies) (heap : List (Option Obj)) (gNodes : Int)
    (config : Configuration) (name : String) :
    List FactoryEvent × Outcome (Option Instance) :=
  let topo := config.topology
  if topo = "torus" then New.branch env heap gNodes .KNCube (some false) config name
  else if topo = "mesh" then New.branch env heap gNodes .KNCube (some true) config name
  else if topo = "cmesh" then New.branch env heap gNodes .CMesh none config name
  else if topo = "fly" then New.branch env heap gNodes .KNFly none config name
  else if topo = "qtree" then New.branch env heap gNodes .QTree none config name
  else if topo = "tree4" then New.branch env heap gNodes .Tree4 none config name
  else if topo = "fattree" then New.branch env heap gNodes .FatTree none config name
  else if topo = "flatfly" then New.branch env heap gNodes .FlatFlyOnChip none config name
  else if topo = "anynet" then New.branch env heap gNodes .AnyNet none config name
  else if topo = "dragonflynew" then New.branch env heap gNodes .DragonFlyNew none config name
  else if topo = "gem5net" then New.branch env heap gNodes .Gem5Net none config name
  else ([.cerr ("Unknown topology: " ++ topo)], .ok none)

/-- The static method `BSNetwork::New`: the events it causes and how it ends (`ok none` is
the null result). -/
def BSNetwork.New (env : Topologies) (heap : List (Option Obj)) (gNodes : Int)
    (config : Configuration) (name : String) :
    List FactoryEvent × Outcome (Option Instance) :=
  match New.select env heap gNodes config name with
  | (ev, .ok (some n)) =>
    if config.link_failures > 0 then
      (ev ++ [.insertRandomFaults n.cls],
       (n.InsertRandomFaults env config).bind fun w => .ok (some { n with net := w }))
    else (ev, .ok (some n))
  | (ev, r) => (ev, r)

/-- The topology names `New` knows. -/
def recognisedTopologies : List String :=
  ["torus", "mesh", "cmesh", "fly", "qtree", "tree4", "fattree", "flatfly", "anynet",
   "dragonflynew", "gem5net"]

/-- How often the fault hook was invoked. -/
def hookCalls (ev : List FactoryEvent) : Nat :=
  (ev.filter fun e => match e with
    | .insertRandomFaults _ => true
    | _ => false).length

/-! ## Destruction -/

/-- The statement `if (p) delete p;`: the heap cell is emptied and the release logged;
deleting a dead object is undefined. -/
def deleteIfSet (p : Ptr) (st : List (Option Obj) × List Addr) :
    Outcome (List (Option Obj) × List Addr) :=
  match p with
  | none => .ok st
  | some a =>
    match st.1[a]? with
    | some (some _) => .ok (st.1.set a none, st.2 ++ [a])
    | _ => .undefined

/-- The statement `if (v[i]) delete v[i];`. -/
def deleteAt (v : List Ptr) (i : Nat) (st : List (Option Obj) × List Addr) :
    Outcome (List (Option Obj) × List Addr) :=
  match vindex v i with
  | none => .undefined
  | some p => deleteIfSet p st

/-- The destructor `BSNetwork::~BSNetwork`: the heap it leaves and the objects it
released, in order. -/
def BSNetwork.dtor (w : Sim) : Outcome (List (Option Obj) × List Addr) :=
  (forRangeM w._size.toNat 0 (fun r st => deleteAt w._routers r st) (w.heap, [])).bind fun st =>
  (forRangeM w._nodes.toNat 0 (fun s st =>
      (deleteAt w._inject s st).bind (deleteAt w._inject_cred s)) st).bind fun st =>
  (forRangeM w._nodes.toNat 0 (fun d st =>
      (deleteAt w._eject d st).bind (deleteAt w._eject_cred d)) st).bind fun st =>
  forRangeM w._channels.toNat 0 (fun c st =>
      ((deleteAt w._chan c st).bind (deleteAt w._chan_cred c)).bind
        (deleteAt w._chan_handshake c)) st

/-- Addresses of the live routers of a heap. -/
def liveRouters (heap : List (Option Obj)) : List Addr :=
  (List.range heap.length).filter fun a =>
    match heap[a]? with
    | some (some (.router _)) => true
    | _ => false

/-! ## The channel-map export -/

/-- One `<<` on the output stream. -/
inductive Tok where
  | str (s : String)
  | int (i : Int)
  | chr (c : Char)
  | endl
deriving DecidableEq, Repr

/-- The expression `v[c]->` for a vector of flit channels. -/
def getFlitChannel (w : Sim) (v : List Ptr) (c : Nat) : Option FlitChannel :=
  match vindex v c with
  | some (some a) =>
    match w.heap[a]? with
    | some (some (.flitChannel fc)) => some fc
    | _ => none
  | _ => none

/-- The expression `r->GetID()` for a router pointer `r`. -/
def getRouterID (w : Sim) (r : Ptr) : Option Int :=
  match r with
  | some a =>
    match w.heap[a]? with
    | some (some (.router id)) => some id
    | _ => none
  | none => none

/-- Body of the first loop of `DumpChannelMap`. -/
def dumpIngressRow (w : Sim) (pfx : String) (c : Nat) (os : List Tok) : Outcome (List Tok) :=
  match getFlitChannel w w._inject c with
  | none => .undefined
  | some fc =>
    match getRouterID w fc.routerSink with
    | none => .undefined
    | some sinkId =>
      .ok (os ++ [.str pfx, .str "-1,", .int fc.routerSourcePort, .chr ',',
                  .int sinkId, .chr ',', .int fc.routerSinkPort, .endl])

/-- Body of the second loop of `DumpChannelMap`. -/
def dumpChanRow (w : Sim) (pfx : String) (c : Nat) (os : List Tok) : Outcome (List Tok) :=
  match getFlitChannel w w._chan c with
  | none => .undefined
  | some fc =>
    match getRouterID w fc.routerSource with
    | none => .undefined
    | some sourceId =>
      match getRouterID w fc.routerSink with
      | none => .undefined
      | some sinkId =>
        .ok (os ++ [.str pfx, .int sourceId, .chr ',', .int fc.routerSourcePort, .chr ',',
                    .int sinkId, .chr ',', .int fc.routerSinkPort, .endl])

/-- Body of the third loop of `DumpChannelMap`. -/
def dumpEgressRow (w : Sim) (pfx : String) (c : Nat) (os : List Tok) : Outcome (List Tok) :=
  match getFlitChannel w w._eject c with
  | none => .undefined
  | some fc =>
    match getRouterID w fc.routerSource with
    | none => .undefined
    | some sourceId =>
      .ok (os ++ [.str pfx, .int sourceId, .chr ',', .int fc.routerSourcePort, .chr ',',
                  .str "-1,", .int fc.routerSinkPort, .endl])

/-- The header row of the channel map. -/
def channelMapHeader : String := "source_router,source_port,dest_router,dest_port"

/-- The method `BSNetwork::DumpChannelMap`, writing to the stream `os`.  It is `const`:
the network is only read. -/
def DumpChannelMap (w : Sim) (os : List Tok) (pfx : String) : Outcome (List Tok) :=
  let os := os ++ [.str pfx, .str channelMapHeader, .endl]
  (forRangeM w._nodes.toNat 0 (dumpIngressRow w pfx) os).bind fun os =>
  (forRangeM w._channels.toNat 0 (dumpChanRow w pfx) os).bind fun os =>
  forRangeM w._nodes.toNat 0 (dumpEgressRow w pfx) os

/-- A stream made of rows, each ended by `endl`. -/
def renderRows (rows : List (List Tok)) : List Tok :=
  rows.flatMap fun r => r ++ [.endl]

/-- The tick method of a phase. -/
def tickOf : Phase → Ext → Sim → Outcome (Sim × List Call)
  | .ReadInputs => ReadInputs
  | .PowerStateEvaluate => PowerStateEvaluate
  | .Evaluate => Evaluate
  | .WriteOutputs => WriteOutputs

/-! ## Well-formedness of a network state -/

/-- The pointer refers to a live flit channel. -/
def Sim.isFlitChannel (w : Sim) (p : Ptr) : Bool :=
  match p with
  | some a =>
    match w.heap[a]? with
    | some (some (.flitChannel _)) => true
    | _ => false
  | none => false

/-- The pointer refers to a live credit channel. -/
def Sim.isCreditChannel (w : Sim) (p : Ptr) : Bool :=
  match p with
  | some a =>
    match w.heap[a]? with
    | some (some (.creditChannel _)) => true
    | _ => false
  | none => false

/-- The pointer refers to a live handshake channel. -/
def Sim.isHandshakeChannel (w : Sim) (p : Ptr) : Bool :=
  match p with
  | some a =>
    match w.heap[a]? with
    | some (some (.handshakeChannel _)) => true
    | _ => false
  | none => false

/-- The pointer refers to a live object. -/
def isLive (heap : List (Option Obj)) (p : Ptr) : Bool :=
  match p with
  | some a =>
    match heap[a]? with
    | some (some _) => true
    | _ => false
  | none => false

/-- An allocated network: the three counts are set, every vector has the length `_Alloc`
gave it, and every link entry points to a live channel of its kind. -/
def Allocated (w : Sim) : Prop :=
  (0 ≤ w._size ∧ 0 ≤ w._nodes ∧ 0 ≤ w._channels) ∧
  (w._routers.length = w._size.toNat ∧
   w._inject.length = w._nodes.toNat ∧ w._inject_cred.length = w._nodes.toNat ∧
   w._eject.length = w._nodes.toNat ∧ w._eject_cred.length = w._nodes.toNat ∧
   w._chan.length = w._channels.toNat ∧ w._chan_cred.length = w._channels.toNat ∧
   w._chan_handshake.length = w._channels.toNat) ∧
  ((∀ p ∈ w._inject, w.isFlitChannel p = true) ∧
   (∀ p ∈ w._inject_cred, w.isCreditChannel p = true) ∧
   (∀ p ∈ w._eject, w.isFlitChannel p = true) ∧
   (∀ p ∈ w._eject_cred, w.isCreditChannel p = true) ∧
   (∀ p ∈ w._chan, w.isFlitChannel p = true) ∧
   (∀ p ∈ w._chan_cred, w.isCreditChannel p = true) ∧
   (∀ p ∈ w._chan_handshake, w.isHandshakeChannel p = true))

instance (w : Sim) : Decidable (Allocated w) := by
  unfold Allocated; infer_instance

/-- Every id of both off-lists is an index of the power-state vectors `_Alloc` builds. -/
def OffListsInRange (w : Sim) : Prop :=
  (∀ c ∈ w._off_cores, 0 ≤ c ∧ c < w._size) ∧ (∀ r ∈ w._off_routers, 0 ≤ r ∧ r < w._size)

instance (w : Sim) : Decidable (OffListsInRange w) := by
  unfold OffListsInRange; infer_instance

/-- Every link endpoint the channel map prints through a router pointer is bound to a
live router: the sink of each ingress link, both ends of each internal link, the source
of each egress link. -/
def EndpointsBound (w : Sim) : Prop :=
  (∀ c < w._nodes.toNat,
    ((getFlitChannel w w._inject c).bind fun fc => getRouterID w fc.routerSink).isSome = true) ∧
  (∀ c < w._channels.toNat,
    ((getFlitChannel w w._chan c).bind fun fc =>
      (getRouterID w fc.routerSource).bind fun _ => getRouterID w fc.routerSink).isSome = true) ∧
  (∀ c < w._nodes.toNat,
    ((getFlitChannel w w._eject c).bind fun fc => getRouterID w fc.routerSource).isSome = true)

instance (w : Sim) : Decidable (EndpointsBound w) := by
  unfold EndpointsBound; infer_instance

/-- Entry `i` of a pointer vector, null past its end. -/
def ptrAt (v : List Ptr) (i : Nat) : Ptr := (v[i]?).getD none

/-- The pointers the destructor visits, in the order it visits them. -/
def dtorPtrs (w : Sim) : List Ptr :=
  (List.range w._size.toNat).flatMap (fun r => [ptrAt w._routers r]) ++
  (List.range w._nodes.toNat).flatMap (fun s => [ptrAt w._inject s, ptrAt w._inject_cred s]) ++
  (List.range w._nodes.toNat).flatMap (fun d => [ptrAt w._eject d, ptrAt w._eject_cred d]) ++
  (List.range w._channels.toNat).flatMap
    (fun c => [ptrAt w._chan c, ptrAt w._chan_cred c, ptrAt w._chan_handshake c])

/-- The links of the network: every entry of the seven link vectors. -/
def Sim.links (w : Sim) : List Ptr :=
  w._inject ++ w._inject_cred ++ w._eject ++ w._eject_cred ++
  w._chan ++ w._chan_cred ++ w._chan_handshake

/-- No object is held twice: the non-null pointers the destructor visits are pairwise
distinct and live. -/
def Owned (w : Sim) : Prop :=
  (dtorPtrs w).reduceOption.Nodup ∧ ∀ a ∈ (dtorPtrs w).reduceOption, isLive w.heap (some a) = true

instance (w : Sim) : Decidable (Owned w) := by
  unfold Owned; infer_instance

/-- Every registered pointer refers to a live object. -/
def RegistryLive (w : Sim) : Prop := ∀ p ∈ w._timed_modules, isLive w.heap p = true

instance (w : Sim) : Decidable (RegistryLive w) := by
  unfold RegistryLive; infer_instance

/-! ## What the link loops of `_Alloc` leave alone -/

/-- The members no link loop of `_Alloc` writes. -/
def SameBase (w w1 : Sim) : Prop :=
  w1.gNodes = w.gNodes ∧ w1.name = w.name ∧ w1._size = w._size ∧ w1._nodes = w._nodes ∧
  w1._channels = w._channels ∧ w1._classes = w._classes ∧
  w1._off_cores = w._off_cores ∧ w1._off_routers = w._off_routers ∧
  w1._core_states = w._core_states ∧ w1._router_states = w._router_states ∧
  w1._routers = w._routers

/-! ## Releasing a sequence of pointers -/

/-- The statement `if (p) delete p;` for each pointer of a list, in order. -/
def deleteAll : List Ptr → List (Option Obj) × List Addr → Outcome (List (Option Obj) × List Addr)
  | [], st => .ok st
  | p :: ps, st => (deleteIfSet p st).bind (deleteAll ps)

/-- The heap after the cells at the given addresses were emptied. -/
def freeAll (as : List Addr) (heap : List (Option Obj)) : List (Option Obj) :=
  as.foldl (fun h a => h.set a none) heap

/-! ## Rows of the channel map -/

/-- An ingress row: prefix, the sentinel `-1,` as source router, source port, sink router,
sink port. -/
def IsIngressRow (pfx : String) (r : List Tok) : Prop :=
  ∃ sourcePort sinkId sinkPort : Int,
    r = [.str pfx, .str "-1,", .int sourcePort, .chr ',', .int sinkId, .chr ',', .int sinkPort]

/-- An internal row: prefix, source router, source port, sink router, sink port. -/
def IsInternalRow (pfx : String) (r : List Tok) : Prop :=
  ∃ sourceId sourcePort sinkId sinkPort : Int,
    r = [.str pfx, .int sourceId, .chr ',', .int sourcePort, .chr ',', .int sinkId, .chr ',',
         .int sinkPort]

/-- An egress row: prefix, source router, source port, the sentinel `-1,` as sink router,
sink port. -/
def IsEgressRow (pfx : String) (r : List Tok) : Prop :=
  ∃ sourceId sourcePort sinkPort : Int,
    r = [.str pfx, .int sourceId, .chr ',', .int sourcePort, .chr ',', .str "-1,",
         .int sinkPort]

/-- A network in the course of allocation: every link entry that is not null points to a
live channel of its kind.  The state the base constructor builds (all vectors empty)
satisfies it. -/
def PartlyAllocated (w : Sim) : Prop :=
  (∀ p ∈ w._inject, p ≠ none → w.isFlitChannel p = true) ∧
  (∀ p ∈ w._inject_cred, p ≠ none → w.isCreditChannel p = true) ∧
  (∀ p ∈ w._eject, p ≠ none → w.isFlitChannel p = true) ∧
  (∀ p ∈ w._eject_cred, p ≠ none → w.isCreditChannel p = true) ∧
  (∀ p ∈ w._chan, p ≠ none → w.isFlitChannel p = true) ∧
  (∀ p ∈ w._chan_cred, p ≠ none → w.isCreditChannel p = true) ∧
  (∀ p ∈ w._chan_handshake, p ≠ none → w.isHandshakeChannel p = true)

/-! ## Concrete states used below -/

/-- The network the base constructor builds from a configuration without fabric
manager, on an empty heap. -/
def freshNetwork : Sim :=
  { heap := [], gNodes := 0, name := "net", _size := -1, _nodes := -1, _channels := -1,
    _classes := 1, _fabric_manager := -1, _off_cores := [], _off_routers := [],
    _core_states := [], _router_states := [], _routers := [],
    _inject := [], _inject_cred := [], _eject := [], _eject_cred := [],
    _chan := [], _chan_cred := [], _chan_handshake := [], _timed_modules := [] }

/-- Topologies whose constructors add nothing to the base constructor and which do not
override the fault hook. -/
def plainTopologies : Topologies :=
  { build := fun _ _ _ _ w => .ok w, faults := fun _ => none }

/-- A mesh configuration with the given link-failure count. -/
def meshConfig (link_failures : Int) : Configuration :=
  ⟨1, -1, "latency", [], [], "mesh", link_failures⟩

/-- A configuration naming a topology `New` does not know. -/
def ringConfig : Configuration :=
  ⟨1, -1, "latency", [], [], "ring", 3⟩

/-- External behaviour in which no component does anything and nothing is ever waiting. -/
def idleExt : Ext :=
  { phase := fun _ o => o, send := fun o _ => o, receive := fun o => (none, o) }

/-- An allocated and wired network: one router (at address 7), one endpoint, one internal
channel from the router to itself; the router is registered after the links. -/
def loopNet : Sim :=
  { heap := [some (.flitChannel ⟨"n_fchan_ingress0", 1, none, 0, some 7, 0⟩),
             some (.creditChannel "n_cchan_ingress0"),
             some (.flitChannel ⟨"n_fchan_egress0", 1, some 7, 0, none, 0⟩),
             some (.creditChannel "n_cchan_egress0"),
             some (.flitChannel ⟨"n_fchan_0", 1, some 7, 1, some 7, 1⟩),
             some (.creditChannel "n_cchan_0"),
             some (.handshakeChannel "n_hchan_0"),
             some (.router 0)],
    gNodes := 1, name := "n", _size := 1, _nodes := 1, _channels := 1,
    _classes := 1, _fabric_manager := -1, _off_cores := [], _off_routers := [],
    _core_states := [true], _router_states := [true], _routers := [some 7],
    _inject := [some 0], _inject_cred := [some 1], _eject := [some 2], _eject_cred := [some 3],
    _chan := [some 4], _chan_cred := [some 5], _chan_handshake := [some 6],
    _timed_modules := [some 0, some 1, some 2, some 3, some 4, some 5, some 6, some 7] }

/-- A configuration that parks core 1 and nothing else. -/
def parkCore1 : Configuration := ⟨1, -1, "latency", [1], [], "cmesh", 0⟩

/-- A configuration that parks nothing. -/
def parkNothing : Configuration := ⟨1, -1, "latency", [], [], "cmesh", 0⟩

/-- A configuration that parks core 0 and router 1. -/
def parkSome : Configuration := ⟨1, -1, "latency", [0], [1], "mesh", 0⟩

/-- A star: four endpoints on one router (at address 16), no internal channel, every
endpoint wired to port `s` of the router. -/
def starNet : Sim :=
  { heap := [some (.flitChannel ⟨"n_fchan_ingress0", 1, none, 0, some 16, 0⟩),
             some (.creditChannel "n_cchan_ingress0"),
             some (.flitChannel ⟨"n_fchan_ingress1", 1, none, 1, some 16, 1⟩),
             some (.creditChannel "n_cchan_ingress1"),
             some (.flitChannel ⟨"n_fchan_ingress2", 1, none, 2, some 16, 2⟩),
             some (.creditChannel "n_cchan_ingress2"),
             some (.flitChannel ⟨"n_fchan_ingress3", 1, none, 3, some 16, 3⟩),
             some (.creditChannel "n_cchan_ingress3"),
             some (.flitChannel ⟨"n_fchan_egress0", 1, some 16, 0, none, 0⟩),
             some (.creditChannel "n_cchan_egress0"),
             some (.flitChannel ⟨"n_fchan_egress1", 1, some 16, 1, none, 1⟩),
             some (.creditChannel "n_cchan_egress1"),
             some (.flitChannel ⟨"n_fchan_egress2", 1, some 16, 2, none, 2⟩),
             some (.creditChannel "n_cchan_egress2"),
             some (.flitChannel ⟨"n_fchan_egress3", 1, some 16, 3, none, 3⟩),
             some (.creditChannel "n_cchan_egress3"),
             some (.router 0)],
    gNodes := 4, name := "n", _size := 1, _nodes := 4, _channels := 0,
    _classes := 1, _fabric_manager := -1, _off_cores := [], _off_routers := [],
    _core_states := [true], _router_states := [true], _routers := [some 16],
    _inject := [some 0, some 2, some 4, some 6],
    _inject_cred := [some 1, some 3, some 5, some 7],
    _eject := [some 8, some 10, some 12, some 14],
    _eject_cred := [some 9, some 11, some 13, some 15],
    _chan := [], _chan_cred := [], _chan_handshake := [],
    _timed_modules := [some 0, some 1, some 2, some 3, some 4, some 5, some 6, some 7,
                       some 8, some 9, some 10, some 11, some 12, some 13, some 14, some 15,
                       some 16] }

/-- Topologies in which `KNCube` overrides the fault hook; the override leaves a visible
mark: it stores the configured link-failure count in `gNodes`. -/
def markingTopologies : Topologies :=
  { build := fun _ _ _ _ w => .ok w,
    faults := fun c =>
      match c with
      | .KNCube => some fun w config => .ok { w with gNodes := config.link_failures }
      | _ => none }

/-- External behaviour in which every phase call leaves a visible mark on a flit channel:
it adds one to its class count. -/
def bumpExt : Ext :=
  { phase := fun _ o =>
      match o with
      | .flitChannel c => .flitChannel { c with classes := c.classes + 1 }
      | other => other,
    send := fun o _ => o,
    receive := fun o => (none, o) }

/-- The network `loopNet` with a registry that holds its first ingress link twice. -/
def twiceRegistered : Sim := { loopNet with _timed_modules := [some 0, some 0] }

/-! ## Theorems -/

/-! ### Random-state snapshot -/

theorem stdCopy_full {α : Type} (src dst : List α) (h : src.length = dst.length) :
    stdCopy src dst = src := by
  simp [stdCopy, h]

theorem stdCopy_length {α : Type} (src dst : List α) (h : src.length = dst.length) :
    (stdCopy src dst).length = dst.length := by
  rw [stdCopy_full src dst h, h]

theorem restore_ok (g : RandomState) (hg : g.WellFormed) (sx : List Int) (su : List Double)
    (hx : sx.length = KK) (hu : su.length = KK) :
    RestoreRandomState g sx su = .ok { ran_x := sx, ran_u := su } := by
  obtain ⟨gx, gu⟩ := hg
  simp [RestoreRandomState, hx, hu, stdCopy_full sx g.ran_x (by rw [hx, gx]),
    stdCopy_full su g.ran_u (by rw [hu, gu])]

/-- C10: on a generator whose two arrays have 100 entries, `SaveRandomState` returns two
vectors of length 100 equal to `ran_x` and `ran_u` and leaves the generator unchanged;
`RestoreRandomState` with those vectors, from any generator state, gives back the saved
state; restoring two vectors of length 100 and saving again returns the same two vectors;
and `RestoreRandomState` ends in a failed assertion whenever one of the two lengths is
not 100. -/
theorem C10_save_restore_inverse (g : RandomState) (hg : g.WellFormed) :
    ((SaveRandomState g).1 = g ∧
      (SaveRandomState g).2.1 = g.ran_x ∧ (SaveRandomState g).2.2 = g.ran_u ∧
      (SaveRandomState g).2.1.length = 100 ∧ (SaveRandomState g).2.2.length = 100) ∧
    (∀ g0 : RandomState, g0.WellFormed →
      RestoreRandomState g0 (SaveRandomState g).2.1 (SaveRandomState g).2.2 = .ok g) ∧
    (∀ (sx : List Int) (su : List Double), sx.length = 100 → su.length = 100 →
      ∃ g1, RestoreRandomState g sx su = .ok g1 ∧ g1.WellFormed ∧
        SaveRandomState g1 = (g1, sx, su)) ∧
    (∀ (sx : List Int) (su : List Double), sx.length ≠ 100 ∨ su.length ≠ 100 →
      RestoreRandomState g sx su = .assertFail) := by
  have hx : g.ran_x.take KK = g.ran_x := List.take_of_length_le (by rw [hg.1])
  have hu : g.ran_u.take KK = g.ran_u := List.take_of_length_le (by rw [hg.2])
  have hx100 : g.ran_x.length = 100 := hg.1
  have hu100 : g.ran_u.length = 100 := hg.2
  refine ⟨⟨rfl, hx, hu, ?_, ?_⟩, ?_, ?_, ?_⟩
  · show (g.ran_x.take KK).length = 100
    rw [hx, hx100]
  · show (g.ran_u.take KK).length = 100
    rw [hu, hu100]
  · intro g0 hg0
    show RestoreRandomState g0 (g.ran_x.take KK) (g.ran_u.take KK) = .ok g
    rw [hx, hu, restore_ok g0 hg0 g.ran_x g.ran_u hg.1 hg.2]
  · intro sx su hsx hsu
    refine ⟨{ ran_x := sx, ran_u := su }, restore_ok g hg sx su hsx hsu, ⟨hsx, hsu⟩, ?_⟩
    simp only [SaveRandomState]
    rw [List.take_of_length_le (by rw [hsx]; decide), List.take_of_length_le (by rw [hsu]; decide)]
  · intro sx su h
    unfold RestoreRandomState
    by_cases h1 : sx.length = KK
    · have h2 : su.length ≠ KK := by
        rcases h with h | h
        · exact absurd h1 h
        · exact h
      simp [h1, h2]
    · simp [h1]

/-- Witness for C10: the generator whose arrays hold 100 zeros. -/
theorem C10_save_restore_inverse_witness :
    RandomState.WellFormed ⟨List.replicate 100 0, List.replicate 100 0⟩ ∧
    (SaveRandomState ⟨List.replicate 100 0, List.replicate 100 0⟩).2.1.length = 100 :=
  ⟨⟨by simp [KK], by simp [KK]⟩,
   (C10_save_restore_inverse ⟨List.replicate 100 0, List.replicate 100 0⟩
    ⟨by simp [KK], by simp [KK]⟩).1.2.2.2.1⟩

/-! ### The allocation precondition -/

theorem vresize_neg {α : Type} (v : List α) (n : Int) (fill : α) (h : n < 0) :
    vresize v n fill = none := by
  simp [vresize, h]

theorem vresize_nonneg {α : Type} (v : List α) (n : Int) (fill : α) (h : 0 ≤ n) :
    vresize v n fill = some (v.take n.toNat ++ List.replicate (n.toNat - v.length) fill) := by
  simp [vresize, not_lt.mpr h]

theorem vresize_length {α : Type} (v v1 : List α) (n : Int) (fill : α)
    (h : vresize v n fill = some v1) : v1.length = n.toNat := by
  unfold vresize at h
  split at h
  · cases h
  · cases h
    simp only [List.length_append, List.length_take, List.length_replicate]
    omega

theorem mem_recognisedTopologies (t : String) :
    t ∈ recognisedTopologies ↔
      (t = "torus" ∨ t = "mesh" ∨ t = "cmesh" ∨ t = "fly" ∨ t = "qtree" ∨ t = "tree4" ∨
       t = "fattree" ∨ t = "flatfly" ∨ t = "anynet" ∨ t = "dragonflynew" ∨ t = "gem5net") := by
  rw [recognisedTopologies]
  simp only [List.mem_cons, List.mem_singleton, List.not_mem_nil, or_false]

theorem select_recognised (env : Topologies) (heap : List (Option Obj)) (gNodes : Int)
    (config : Configuration) (name : String) (h : config.topology ∈ recognisedTopologies) :
    ∃ c mesh, New.select env heap gNodes config name =
      New.branch env heap gNodes c mesh config name := by
  rw [mem_recognisedTopologies] at h
  unfold New.select
  dsimp only
  by_cases h1 : config.topology = "torus"
  · rw [if_pos h1]; exact ⟨_, _, rfl⟩
  rw [if_neg h1]
  by_cases h2 : config.topology = "mesh"
  · rw [if_pos h2]; exact ⟨_, _, rfl⟩
  rw [if_neg h2]
  by_cases h3 : config.topology = "cmesh"
  · rw [if_pos h3]; exact ⟨_, _, rfl⟩
  rw [if_neg h3]
  by_cases h4 : config.topology = "fly"
  · rw [if_pos h4]; exact ⟨_, _, rfl⟩
  rw [if_neg h4]
  by_cases h5 : config.topology = "qtree"
  · rw [if_pos h5]; exact ⟨_, _, rfl⟩
  rw [if_neg h5]
  by_cases h6 : config.topology = "tree4"
  · rw [if_pos h6]; exact ⟨_, _, rfl⟩
  rw [if_neg h6]
  by_cases h7 : config.topology = "fattree"
  · rw [if_pos h7]; exact ⟨_, _, rfl⟩
  rw [if_neg h7]
  by_cases h8 : config.topology = "flatfly"
  · rw [if_pos h8]; exact ⟨_, _, rfl⟩
  rw [if_neg h8]
  by_cases h9 : config.topology = "anynet"
  · rw [if_pos h9]; exact ⟨_, _, rfl⟩
  rw [if_neg h9]
  by_cases h10 : config.topology = "dragonflynew"
  · rw [if_pos h10]; exact ⟨_, _, rfl⟩
  rw [if_neg h10]
  by_cases h11 : config.topology = "gem5net"
  · rw [if_pos h11]; exact ⟨_, _, rfl⟩
  rw [if_neg h11]
  exfalso
  rcases h with h | h | h | h | h | h | h | h | h | h | h <;> contradiction

theorem select_unknown (env : Topologies) (heap : List (Option Obj)) (gNodes : Int)
    (config : Configuration) (name : String) (h : config.topology ∉ recognisedTopologies) :
    New.select env heap gNodes config name =
      ([.cerr ("Unknown topology: " ++ config.topology)], .ok none) := by
  rw [mem_recognisedTopologies] at h
  simp only [not_or] at h
  obtain ⟨h1, h2, h3, h4, h5, h6, h7, h8, h9, h10, h11⟩ := h
  unfold New.select
  dsimp only
  rw [if_neg h1, if_neg h2, if_neg h3, if_neg h4, if_neg h5, if_neg h6, if_neg h7, if_neg h8,
    if_neg h9, if_neg h10, if_neg h11]

/-- What `New` does once the if-chain took the branch of class `c`. -/
theorem New_of_branch (env : Topologies) (heap : List (Option Obj)) (gNodes : Int)
    (config : Configuration) (name : String) (c : TopologyClass) (mesh : Option Bool)
    (h : New.select env heap gNodes config name =
      New.branch env heap gNodes c mesh config name) :
    (∀ n, construct env heap gNodes c mesh config name = .ok n →
      (0 < config.link_failures →
        BSNetwork.New env heap gNodes config name =
          ([.registerRoutingFunctions c, .construct c mesh, .insertRandomFaults n.cls],
           (n.InsertRandomFaults env config).bind fun w => .ok (some { n with net := w }))) ∧
      (config.link_failures ≤ 0 →
        BSNetwork.New env heap gNodes config name =
          ([.registerRoutingFunctions c, .construct c mesh], .ok (some n)))) ∧
    ((∀ n, construct env heap gNodes c mesh config name ≠ .ok n) →
      BSNetwork.New env heap gNodes config name =
        ([.registerRoutingFunctions c, .construct c mesh],
         (construct env heap gNodes c mesh config name).bind fun n => .ok (some n)) ∧
      ∀ r, (BSNetwork.New env heap gNodes config name).2 ≠ .ok r) := by
  unfold BSNetwork.New
  rw [h]
  unfold New.branch
  refine ⟨?_, ?_⟩
  · intro n hn
    rw [hn]
    simp only [Outcome.bind]
    refine ⟨?_, ?_⟩
    · intro hl
      rw [if_pos hl]
      rfl
    · intro hl
      rw [if_neg (not_lt.mpr hl)]
  · intro hn
    cases hc : construct env heap gNodes c mesh config name with
    | ok n => exact absurd hc (hn n)
    | assertFail => exact ⟨rfl, fun r hr => by cases hr⟩
    | lengthError r => exact ⟨rfl, fun r hr => by cases hr⟩
    | undefined => exact ⟨rfl, fun r hr => by cases hr⟩
    | fatal m => exact ⟨rfl, fun r hr => by cases hr⟩

theorem bind_some_ne_none {α : Type} (x : Outcome α) (f : α → β) :
    (x.bind fun a => Outcome.ok (some (f a))) ≠ .ok none := by
  cases x <;> simp [Outcome.bind]

/-- C5: `New` returns the null result exactly when the configured topology name is not
one of the eleven recognised names; for an unknown name all it does is write the
diagnostic (no abort, no registration, no construction, no fault hook, whatever the
link-failure count); for a recognised name it resolves to one class, and what it does
starts with the routing-function registration of that class, followed by the construction. -/
theorem C5_factory_null_iff_unknown (env : Topologies) (heap : List (Option Obj))
    (gNodes : Int) (config : Configuration) (name : String) :
    ((BSNetwork.New env heap gNodes config name).2 = .ok none ↔
      config.topology ∉ recognisedTopologies) ∧
    (config.topology ∉ recognisedTopologies →
      BSNetwork.New env heap gNodes config name =
        ([.cerr ("Unknown topology: " ++ config.topology)], .ok none)) ∧
    (config.topology ∈ recognisedTopologies →
      ∃ c mesh, (BSNetwork.New env heap gNodes config name).1.take 2 =
          [.registerRoutingFunctions c, .construct c mesh] ∧
        ∀ e ∈ (BSNetwork.New env heap gNodes config name).1.drop 2,
          e = .insertRandomFaults c) := by
  have hunk : config.topology ∉ recognisedTopologies →
      BSNetwork.New env heap gNodes config name =
        ([.cerr ("Unknown topology: " ++ config.topology)], .ok none) := by
    intro h
    unfold BSNetwork.New
    rw [select_unknown env heap gNodes config name h]
  have hrec : config.topology ∈ recognisedTopologies →
      (BSNetwork.New env heap gNodes config name).2 ≠ .ok none ∧
      ∃ c mesh, (BSNetwork.New env heap gNodes config name).1.take 2 =
          [.registerRoutingFunctions c, .construct c mesh] ∧
        ∀ e ∈ (BSNetwork.New env heap gNodes config name).1.drop 2,
          e = .insertRandomFaults c := by
    intro h
    obtain ⟨c, mesh, hsel⟩ := select_recognised env heap gNodes config name h
    obtain ⟨hok, hfail⟩ := New_of_branch env heap gNodes config name c mesh hsel
    cases hc : construct env heap gNodes c mesh config name with
    | ok n =>
      have hcls : n.cls = c := by
        unfold construct at hc
        cases h1 : BSNetwork.ctor heap gNodes config name with
        | ok w =>
          rw [h1] at hc
          simp only [Outcome.bind] at hc
          cases h2 : env.build c mesh config name w with
          | ok w1 =>
            rw [h2] at hc
            simp only [Outcome.ok.injEq] at hc
            rw [← hc]
          | assertFail => rw [h2] at hc; cases hc
          | lengthError r => rw [h2] at hc; cases hc
          | undefined => rw [h2] at hc; cases hc
          | fatal m => rw [h2] at hc; cases hc
        | assertFail => rw [h1] at hc; cases hc
        | lengthError r => rw [h1] at hc; cases hc
        | undefined => rw [h1] at hc; cases hc
        | fatal m => rw [h1] at hc; cases hc
      by_cases hl : 0 < config.link_failures
      · rw [((hok n hc).1 hl)]
        refine ⟨bind_some_ne_none _ _, c, mesh, rfl, ?_⟩
        intro e he
        simp only [List.drop_succ_cons, List.drop_zero, List.mem_singleton] at he
        rw [he, hcls]
      · rw [((hok n hc).2 (not_lt.mp hl))]
        refine ⟨by simp, c, mesh, rfl, ?_⟩
        intro e he
        simp at he
    | assertFail =>
      have hne : ∀ n, construct env heap gNodes c mesh config name ≠ .ok n := by
        intro n hn; rw [hc] at hn; cases hn
      refine ⟨(hfail hne).2 none, c, mesh, ?_, ?_⟩
      · rw [(hfail hne).1]; rfl
      · rw [(hfail hne).1]; intro e he; simp at he
    | lengthError r =>
      have hne : ∀ n, construct env heap gNodes c mesh config name ≠ .ok n := by
        intro n hn; rw [hc] at hn; cases hn
      refine ⟨(hfail hne).2 none, c, mesh, ?_, ?_⟩
      · rw [(hfail hne).1]; rfl
      · rw [(hfail hne).1]; intro e he; simp at he
    | undefined =>
      have hne : ∀ n, construct env heap gNodes c mesh config name ≠ .ok n := by
        intro n hn; rw [hc] at hn; cases hn
      refine ⟨(hfail hne).2 none, c, mesh, ?_, ?_⟩
      · rw [(hfail hne).1]; rfl
      · rw [(hfail hne).1]; intro e he; simp at he
    | fatal m =>
      have hne : ∀ n, construct env heap gNodes c mesh config name ≠ .ok n := by
        intro n hn; rw [hc] at hn; cases hn
      refine ⟨(hfail hne).2 none, c, mesh, ?_, ?_⟩
      · rw [(hfail hne).1]; rfl
      · rw [(hfail hne).1]; intro e he; simp at he
  refine ⟨⟨?_, ?_⟩, hunk, fun h => (hrec h).2⟩
  · intro h hmem
    exact (hrec hmem).1 h
  · intro h
    rw [hunk h]

/-! ### The fault hook -/

theorem hookCalls_branch_events (c : TopologyClass) (mesh : Option Bool) :
    hookCalls [.registerRoutingFunctions c, .construct c mesh] = 0 := rfl

theorem hookCalls_append_hook (ev : List FactoryEvent) (c : TopologyClass) :
    hookCalls (ev ++ [.insertRandomFaults c]) = hookCalls ev + 1 := by
  simp [hookCalls, List.filter_append]

/-- The result of `New` when the if-chain left a built instance in `n`. -/
theorem New_of_instance (env : Topologies) (heap : List (Option Obj)) (gNodes : Int)
    (config : Configuration) (name : String) (n : Instance)
    (h : (New.select env heap gNodes config name).2 = .ok (some n)) :
    BSNetwork.New env heap gNodes config name =
      if config.link_failures > 0 then
        ((New.select env heap gNodes config name).1 ++ [.insertRandomFaults n.cls],
         (n.InsertRandomFaults env config).bind fun w => .ok (some { n with net := w }))
      else ((New.select env heap gNodes config name).1, .ok (some n)) := by
  unfold BSNetwork.New
  cases hs : New.select env heap gNodes config name with
  | mk ev r =>
    rw [hs] at h
    simp only at h
    subst h
    rfl

/-- The events of `New` when the if-chain did not leave an instance. -/
theorem New_of_no_instance (env : Topologies) (heap : List (Option Obj)) (gNodes : Int)
    (config : Configuration) (name : String)
    (h : ∀ n, (New.select env heap gNodes config name).2 ≠ .ok (some n)) :
    BSNetwork.New env heap gNodes config name = New.select env heap gNodes config name := by
  unfold BSNetwork.New
  cases hs : New.select env heap gNodes config name with
  | mk ev r =>
    rw [hs] at h
    cases r with
    | ok o =>
      cases o with
      | none => rfl
      | some n => exact absurd rfl (h n)
    | assertFail => rfl
    | lengthError r => rfl
    | undefined => rfl
    | fatal m => rfl

theorem construct_cls (env : Topologies) (heap : List (Option Obj)) (gNodes : Int)
    (c : TopologyClass) (mesh : Option Bool) (config : Configuration) (name : String)
    (n : Instance) (h : construct env heap gNodes c mesh config name = .ok n) : n.cls = c := by
  unfold construct at h
  cases h1 : BSNetwork.ctor heap gNodes config name with
  | ok w =>
    rw [h1] at h
    simp only [Outcome.bind] at h
    cases h2 : env.build c mesh config name w with
    | ok w1 =>
      rw [h2] at h
      simp only [Outcome.ok.injEq] at h
      rw [← h]
    | assertFail => rw [h2] at h; cases h
    | lengthError r => rw [h2] at h; cases h
    | undefined => rw [h2] at h; cases h
    | fatal m => rw [h2] at h; cases h
  | assertFail => rw [h1] at h; cases h
  | lengthError r => rw [h1] at h; cases h
  | undefined => rw [h1] at h; cases h
  | fatal m => rw [h1] at h; cases h

/-- Whatever happens later, `New` starts with the registration and the construction of the
class its if-chain selected. -/
theorem New_events_take (env : Topologies) (heap : List (Option Obj)) (gNodes : Int)
    (config : Configuration) (name : String) (c : TopologyClass) (mesh : Option Bool)
    (h : New.select env heap gNodes config name =
      New.branch env heap gNodes c mesh config name) :
    (BSNetwork.New env heap gNodes config name).1.take 2 =
      [.registerRoutingFunctions c, .construct c mesh] := by
  obtain ⟨hok, hfail⟩ := New_of_branch env heap gNodes config name c mesh h
  by_cases hn : ∃ n, construct env heap gNodes c mesh config name = .ok n
  · obtain ⟨n, hn⟩ := hn
    by_cases hl : 0 < config.link_failures
    · rw [(hok n hn).1 hl]
      rfl
    · rw [(hok n hn).2 (not_lt.mp hl)]
      rfl
  · rw [(hfail (fun n h1 => hn ⟨n, h1⟩)).1]
    rfl

/-- C6: for a recognised topology name `New` resolves to one class `c`, registers and
constructs it.  If the constructor returned the instance `n` and the link-failure count
is positive, `New` then makes exactly one call of the fault hook, on `n` with the
configuration: when class `c` overrides the hook with `f`, the result of `New` is the
result of `f` on the state of `n`; when it does not, the hook of the base class runs and
`New` ends in the fatal error "InsertRandomFaults not implemented for this topology!"
instead of returning an instance.  If the count is zero or negative the hook is not
called and `New` returns `n` untouched.  If the constructor did not return, the hook is
not called either.  The hook of the base class ends in that fatal error for every
network and configuration. -/
theorem C6_fault_hook (env : Topologies) (heap : List (Option Obj)) (gNodes : Int)
    (config : Configuration) (name : String)
    (hrec : config.topology ∈ recognisedTopologies) :
    (∃ c mesh, (BSNetwork.New env heap gNodes config name).1.take 2 =
      [.registerRoutingFunctions c, .construct c mesh]) ∧
    (∀ c mesh, (BSNetwork.New env heap gNodes config name).1.take 2 =
        [.registerRoutingFunctions c, .construct c mesh] →
      (∀ n, construct env heap gNodes c mesh config name = .ok n →
        n.cls = c ∧
        (∀ f, 0 < config.link_failures → env.faults c = some f →
          BSNetwork.New env heap gNodes config name =
            ([.registerRoutingFunctions c, .construct c mesh, .insertRandomFaults c],
             (f n.net config).bind fun w => .ok (some { n with net := w }))) ∧
        (0 < config.link_failures → env.faults c = none →
          BSNetwork.New env heap gNodes config name =
            ([.registerRoutingFunctions c, .construct c mesh, .insertRandomFaults c],
             .fatal "InsertRandomFaults not implemented for this topology!")) ∧
        (0 < config.link_failures →
          hookCalls (BSNetwork.New env heap gNodes config name).1 = 1) ∧
        (config.link_failures ≤ 0 →
          BSNetwork.New env heap gNodes config name =
            ([.registerRoutingFunctions c, .construct c mesh], .ok (some n)))) ∧
      ((∀ n, construct env heap gNodes c mesh config name ≠ .ok n) →
        BSNetwork.New env heap gNodes config name =
          ([.registerRoutingFunctions c, .construct c mesh],
           (construct env heap gNodes c mesh config name).bind fun n => .ok (some n)) ∧
        ∀ r, (BSNetwork.New env heap gNodes config name).2 ≠ .ok r)) ∧
    (config.link_failures ≤ 0 →
      hookCalls (BSNetwork.New env heap gNodes config name).1 = 0) ∧
    hookCalls (BSNetwork.New env heap gNodes config name).1 ≤ 1 ∧
    (∀ (w : Sim) (cfg : Configuration), BSNetwork.InsertRandomFaults w cfg =
      .fatal "InsertRandomFaults not implemented for this topology!") := by
  obtain ⟨c0, mesh0, hsel⟩ := select_recognised env heap gNodes config name hrec
  have htake := New_events_take env heap gNodes config name c0 mesh0 hsel
  obtain ⟨hok, hfail⟩ := New_of_branch env heap gNodes config name c0 mesh0 hsel
  have hcount : (config.link_failures ≤ 0 →
      hookCalls (BSNetwork.New env heap gNodes config name).1 = 0) ∧
      hookCalls (BSNetwork.New env heap gNodes config name).1 ≤ 1 ∧
      (∀ n, construct env heap gNodes c0 mesh0 config name = .ok n →
        0 < config.link_failures →
        hookCalls (BSNetwork.New env heap gNodes config name).1 = 1) := by
    by_cases hn : ∃ n, construct env heap gNodes c0 mesh0 config name = .ok n
    · obtain ⟨n, hn⟩ := hn
      by_cases hl : 0 < config.link_failures
      · have h1 : hookCalls (BSNetwork.New env heap gNodes config name).1 = 1 := by
          rw [(hok n hn).1 hl]
          rfl
        exact ⟨fun h => absurd hl (not_lt.mpr h), by rw [h1], fun _ _ _ => h1⟩
      · have h0 : hookCalls (BSNetwork.New env heap gNodes config name).1 = 0 := by
          rw [(hok n hn).2 (not_lt.mp hl)]
          rfl
        exact ⟨fun _ => h0, by rw [h0]; exact Nat.zero_le 1, fun _ _ h => absurd h hl⟩
    · have h0 : hookCalls (BSNetwork.New env heap gNodes config name).1 = 0 := by
        rw [(hfail (fun n h1 => hn ⟨n, h1⟩)).1]
        rfl
      exact ⟨fun _ => h0, by rw [h0]; exact Nat.zero_le 1,
        fun n h1 _ => absurd ⟨n, h1⟩ hn⟩
  refine ⟨⟨c0, mesh0, htake⟩, ?_, hcount.1, hcount.2.1, fun _ _ => rfl⟩
  intro c mesh hcm
  rw [htake] at hcm
  simp only [List.cons.injEq, FactoryEvent.registerRoutingFunctions.injEq,
    FactoryEvent.construct.injEq, and_true] at hcm
  obtain ⟨hc, _, hm⟩ := hcm
  subst hc hm
  refine ⟨?_, hfail⟩
  intro n hn
  have hcls : n.cls = c0 := construct_cls env heap gNodes c0 mesh0 config name n hn
  refine ⟨hcls, ?_, ?_, hcount.2.2 n hn, ?_⟩
  · intro f hl hf
    rw [(hok n hn).1 hl, hcls]
    unfold Instance.InsertRandomFaults
    rw [hcls, hf]
  · intro hl hf
    rw [(hok n hn).1 hl, hcls]
    unfold Instance.InsertRandomFaults
    rw [hcls, hf]
    rfl
  · intro hl
    exact (hok n hn).2 hl

/-- Witness for C5: an unknown name gives the null result and only the diagnostic, with
a positive link-failure count configured. -/
theorem C5_factory_null_iff_unknown_witness :
    ringConfig.topology ∉ recognisedTopologies ∧
    BSNetwork.New plainTopologies [] 0 ringConfig "net" =
      ([.cerr ("Unknown topology: " ++ ringConfig.topology)], .ok none) :=
  ⟨by decide,
   (C5_factory_null_iff_unknown plainTopologies [] 0 ringConfig "net").2.1 (by decide)⟩

/-- Witness for C6: a mesh with two link failures configured.  With a `KNCube` that
overrides the hook, the override has run on the built instance; the events are the
registration, the construction and the one hook call. -/
theorem C6_fault_hook_witness :
    (meshConfig 2).topology ∈ recognisedTopologies ∧
    BSNetwork.New markingTopologies [] 0 (meshConfig 2) "net" =
      ([.registerRoutingFunctions .KNCube, .construct .KNCube (some true),
        .insertRandomFaults .KNCube],
       .ok (some ⟨.KNCube, { freshNetwork with gNodes := 2 }⟩)) :=
  ⟨by decide,
   (((C6_fault_hook markingTopologies [] 0 (meshConfig 2) "net" (by decide)).2.1
      .KNCube (some true) (by decide)).1 ⟨.KNCube, freshNetwork⟩ (by decide)).2.1
     (fun w config => .ok { w with gNodes := config.link_failures }) (by decide) rfl⟩

/-! ### The phased tick -/

theorem isLive_some_iff (heap : List (Option Obj)) (p : Ptr) :
    isLive heap p = true ↔ ∃ a o, p = some a ∧ heap[a]? = some (some o) := by
  constructor
  · intro h
    cases p with
    | none => simp [isLive] at h
    | some a =>
      simp only [isLive] at h
      split at h
      · rename_i o ho
        exact ⟨a, o, rfl, ho⟩
      · cases h
  · rintro ⟨a, o, rfl, h⟩
    simp [isLive, h]

theorem isLive_set (heap : List (Option Obj)) (a : Addr) (o : Obj) (p : Ptr)
    (h : isLive heap (some a) = true) :
    isLive (heap.set a (some o)) p = isLive heap p := by
  obtain ⟨a1, o1, ha1, ho1⟩ := (isLive_some_iff heap (some a)).mp h
  cases ha1
  have hlt : a < heap.length := by
    by_contra hcon
    rw [List.getElem?_eq_none (not_lt.mp hcon)] at ho1
    cases ho1
  cases p with
  | none => rfl
  | some b =>
    simp only [isLive, List.getElem?_set]
    by_cases hab : a = b
    · subst hab
      simp only [if_true, hlt, ho1]
    · simp only [hab, if_false]

theorem tickLoop_spec (x : Ext) (op : Phase) (l : List Ptr) :
    ∀ st : List (Option Obj) × List Call, (∀ p ∈ l, isLive st.1 p = true) →
      ∃ heap1 calls, tickLoop x op l st = .ok (heap1, st.2 ++ calls) ∧
        calls.map (fun c => some c.target) = l ∧ (∀ c ∈ calls, c.op = op) ∧
        heap1.length = st.1.length ∧
        (∀ p, isLive heap1 p = isLive st.1 p) ∧
        (∀ a, some a ∉ l → heap1[a]? = st.1[a]?) := by
  induction l with
  | nil =>
    intro st _
    exact ⟨st.1, [], by simp [tickLoop], rfl, by simp, rfl, fun _ => rfl, fun _ _ => rfl⟩
  | cons p rest ih =>
    intro st hl
    have hp : isLive st.1 p = true := hl p (List.mem_cons_self _ _)
    obtain ⟨a, o, rfl, ho⟩ := (isLive_some_iff st.1 p).mp hp
    have hstep : callPhase x op (some a) st =
        .ok (st.1.set a (some (x.phase op o)), st.2 ++ [⟨a, op⟩]) := by
      simp only [callPhase, ho]
    have hrest : ∀ q ∈ rest, isLive (st.1.set a (some (x.phase op o))) q = true := by
      intro q hq
      rw [isLive_set st.1 a _ q hp]
      exact hl q (List.mem_cons_of_mem _ hq)
    obtain ⟨heap1, calls, hrun, hmap, hop, hlen, hlive, hframe⟩ :=
      ih (st.1.set a (some (x.phase op o)), st.2 ++ [⟨a, op⟩]) hrest
    refine ⟨heap1, ⟨a, op⟩ :: calls, ?_, ?_, ?_, ?_, ?_, ?_⟩
    · simp only [tickLoop, hstep, Outcome.bind, hrun, List.append_assoc, List.singleton_append]
    · simp only [List.map_cons, hmap]
    · intro c hc
      rcases List.mem_cons.mp hc with rfl | hc
      · rfl
      · exact hop c hc
    · rw [hlen, List.length_set]
    · intro q
      rw [hlive q, isLive_set st.1 a _ q hp]
    · intro b hb
      have hba : a ≠ b := fun h => hb (h ▸ List.mem_cons_self _ _)
      rw [hframe b (fun h => hb (List.mem_cons_of_mem _ h))]
      simp only [List.getElem?_set, hba, if_false]

theorem countP_eq_one_of_nodup {α : Type} [DecidableEq α] (l : List α) (x : α)
    (hnd : l.Nodup) (hx : x ∈ l) : l.countP (fun p => p = x) = 1 := by
  induction l with
  | nil => cases hx
  | cons y rest ih =>
    obtain ⟨hy, hrest⟩ := List.nodup_cons.mp hnd
    by_cases hxy : y = x
    · subst hxy
      have h0 : rest.countP (fun p => p = y) = 0 := by
        rw [List.countP_eq_zero]
        intro p hp hpy
        have : p = y := by simpa using hpy
        exact hy (this ▸ hp)
      simp [List.countP_cons, h0]
    · have hx1 : x ∈ rest := by
        rcases List.mem_cons.mp hx with h | h
        · exact absurd h.symm hxy
        · exact h
      simp [List.countP_cons, hxy, ih hrest hx1]

theorem tickOf_eq (op : Phase) (x : Ext) (w : Sim) : tickOf op x w = tickPass x op w := by
  cases op <;> rfl

/-- The effect of a pass on the heap: the operation has been applied to each live object
as many times as the list holds its address. -/
theorem tickLoop_effect (x : Ext) (op : Phase) (l : List Ptr) :
    ∀ (st : List (Option Obj) × List Call) (heap1 : List (Option Obj)) (log : List Call),
      tickLoop x op l st = .ok (heap1, log) →
      ∀ (a : Addr) (o : Obj), st.1[a]? = some (some o) →
        heap1[a]? = some (some ((x.phase op)^[l.countP (fun p => p = some a)] o)) := by
  induction l with
  | nil =>
    intro st heap1 log h a o ho
    simp only [tickLoop, Outcome.ok.injEq] at h
    subst h
    simpa using ho
  | cons p rest ih =>
    intro st heap1 log h a o ho
    cases p with
    | none => simp [tickLoop, callPhase, Outcome.bind] at h
    | some b =>
      simp only [tickLoop, callPhase] at h
      cases hb : st.1[b]? with
      | none => rw [hb] at h; simp [Outcome.bind] at h
      | some cell =>
        cases cell with
        | none => rw [hb] at h; simp [Outcome.bind] at h
        | some ob =>
          rw [hb] at h
          simp only [Outcome.bind] at h
          by_cases hab : b = a
          · subst hab
            have hoo : ob = o := by
              rw [hb] at ho
              simpa using ho
            subst hoo
            have hlt : b < st.1.length := by
              by_contra hcon
              rw [List.getElem?_eq_none (not_lt.mp hcon)] at hb
              cases hb
            have hcell : (st.1.set b (some (x.phase op ob)))[b]? =
                some (some (x.phase op ob)) := by
              rw [List.getElem?_set]
              simp [hlt]
            have := ih _ heap1 log h b (x.phase op ob) hcell
            rw [this, List.countP_cons]
            simp only [decide_True, if_true, Function.iterate_succ_apply]
          · have hcell : (st.1.set b (some (x.phase op ob)))[a]? = some (some o) := by
              rw [List.getElem?_set]
              simp only [hab, if_false]
              exact ho
            have := ih _ heap1 log h a o hcell
            rw [this, List.countP_cons]
            have hne : ¬ (some b : Ptr) = some a := fun e => hab (Option.some.inj e)
            simp [hne]

/-- C7, counterexample: with the same link registered twice, the `ReadInputs` pass calls
`ReadInputs` on it twice, not once: two calls are logged and the mark of the operation is
on the object twice (class count 1 before, 3 after). -/
theorem C7_counterexample :
    twiceRegistered._timed_modules = [some 0, some 0] ∧
    twiceRegistered.heap[0]? =
      some (some (.flitChannel ⟨"n_fchan_ingress0", 1, none, 0, some 7, 0⟩)) ∧
    ∃ heap1, ReadInputs bumpExt twiceRegistered =
        .ok ({ twiceRegistered with heap := heap1 },
             [⟨0, .ReadInputs⟩, ⟨0, .ReadInputs⟩]) ∧
      heap1[0]? = some (some (.flitChannel ⟨"n_fchan_ingress0", 3, none, 0, some 7, 0⟩)) :=
  ⟨rfl, rfl, _, rfl, rfl⟩

/-- C7, amended: on a registry whose entries are live components, each of the four tick
methods (`ReadInputs`, `PowerStateEvaluate`, `Evaluate`, `WriteOutputs`) returns; the calls
it made are, in order, one call of its own operation per registry entry, and no other
call; the operation has been applied to every component as many times as the registry
holds it (once when it is registered once, not at all when it is not registered); the
only thing that changes is the heap cells of the registered components, so the registry,
the power-state vectors and every other member are as before. -/
theorem C7_tick_pass (x : Ext) (op : Phase) (w : Sim) (hlive : RegistryLive w) :
    ∃ heap1 calls, tickOf op x w = .ok ({ w with heap := heap1 }, calls) ∧
      calls.map (fun c => some c.target) = w._timed_modules ∧
      (∀ c ∈ calls, c.op = op) ∧
      (∀ a, calls.countP (fun c => c.target = a) =
        w._timed_modules.countP (fun p => p = some a)) ∧
      (w._timed_modules.Nodup → ∀ a, some a ∈ w._timed_modules →
        calls.countP (fun c => c.target = a) = 1) ∧
      ({ w with heap := heap1 } : Sim)._timed_modules = w._timed_modules ∧
      ({ w with heap := heap1 } : Sim)._core_states = w._core_states ∧
      ({ w with heap := heap1 } : Sim)._router_states = w._router_states ∧
      (∀ p, isLive heap1 p = isLive w.heap p) ∧
      (∀ a, some a ∉ w._timed_modules → heap1[a]? = w.heap[a]?) ∧
      heap1.length = w.heap.length ∧
      (∀ (a : Addr) (o : Obj), w.heap[a]? = some (some o) →
        heap1[a]? =
          some (some ((x.phase op)^[w._timed_modules.countP (fun p => p = some a)] o))) ∧
      (w._timed_modules.Nodup → ∀ (a : Addr) (o : Obj), some a ∈ w._timed_modules →
        w.heap[a]? = some (some o) → heap1[a]? = some (some (x.phase op o))) ∧
      (∀ a, isLive w.heap (some a) = false → heap1[a]? = w.heap[a]?) := by
  obtain ⟨heap1, calls, hrun, hmap, hop, hlen, hl, hframe⟩ :=
    tickLoop_spec x op w._timed_modules (w.heap, []) hlive
  have hcount : ∀ a, calls.countP (fun c => c.target = a) =
      w._timed_modules.countP (fun p => p = some a) := by
    intro a
    rw [← hmap, List.countP_map]
    congr 1
    funext c
    simp [Function.comp]
  have heff := tickLoop_effect x op w._timed_modules (w.heap, []) heap1 _ hrun
  refine ⟨heap1, calls, ?_, hmap, hop, hcount, ?_, rfl, rfl, rfl, hl, hframe, hlen, heff,
    ?_, ?_⟩
  · rw [tickOf_eq]
    simp only [tickPass, hrun, Outcome.bind, List.nil_append]
  · intro hnd a ha
    rw [hcount a]
    exact countP_eq_one_of_nodup _ _ hnd ha
  · intro hnd a o ha ho
    rw [heff a o ho, countP_eq_one_of_nodup _ _ hnd ha]
    rfl
  · intro a ha
    apply hframe
    intro hmem
    rw [hlive _ hmem] at ha
    cases ha

/-- Witness for C7: the `Evaluate` pass over the eight registered components of
`loopNet`; the first ingress link, registered once, carries the mark of one call. -/
theorem C7_tick_pass_witness :
    RegistryLive loopNet ∧
    ∃ heap1 calls, tickOf .Evaluate bumpExt loopNet = .ok ({ loopNet with heap := heap1 }, calls) ∧
      calls.map (fun c => some c.target) = loopNet._timed_modules ∧
      heap1[0]? = some (some (.flitChannel ⟨"n_fchan_ingress0", 2, none, 0, some 7, 0⟩)) :=
  ⟨by decide,
   match C7_tick_pass bumpExt .Evaluate loopNet (by decide) with
   | ⟨heap1, calls, h1, h2, _, _, _, _, _, _, _, _, _, _, h13, _⟩ =>
     ⟨heap1, calls, h1, h2, h13 (by decide) 0 _ (by decide) rfl⟩⟩

/-! ### Boundary I/O -/

theorem isFlitChannel_live (w : Sim) (p : Ptr) (h : w.isFlitChannel p = true) :
    isLive w.heap p = true := by
  cases p with
  | none => simp [Sim.isFlitChannel] at h
  | some a =>
    simp only [Sim.isFlitChannel] at h
    split at h
    · rename_i fc hfc
      simp [isLive, hfc]
    · cases h

theorem isCreditChannel_live (w : Sim) (p : Ptr) (h : w.isCreditChannel p = true) :
    isLive w.heap p = true := by
  cases p with
  | none => simp [Sim.isCreditChannel] at h
  | some a =>
    simp only [Sim.isCreditChannel] at h
    split at h
    · rename_i fc hfc
      simp [isLive, hfc]
    · cases h

theorem isHandshakeChannel_live (w : Sim) (p : Ptr) (h : w.isHandshakeChannel p = true) :
    isLive w.heap p = true := by
  cases p with
  | none => simp [Sim.isHandshakeChannel] at h
  | some a =>
    simp only [Sim.isHandshakeChannel] at h
    split at h
    · rename_i fc hfc
      simp [isLive, hfc]
    · cases h

/-- In range, the link behind entry `e` of a vector of live links is found. -/
theorem derefLink_of_live (w : Sim) (v : List Ptr) (e : Int)
    (hlen : v.length = w._nodes.toNat) (hv : ∀ p ∈ v, isLive w.heap p = true)
    (h0 : 0 ≤ e) (h1 : e < w._nodes) :
    ∃ a o, v[e.toNat]? = some (some a) ∧ w.heap[a]? = some (some o) ∧
      derefLink w v e = some (a, o) := by
  have hlt : e.toNat < v.length := by rw [hlen]; omega
  have hget : v[e.toNat]? = some (v[e.toNat]) := List.getElem?_eq_getElem hlt
  have hmem : v[e.toNat] ∈ v := List.getElem_mem hlt
  obtain ⟨a, o, hp, ho⟩ := (isLive_some_iff w.heap _).mp (hv _ hmem)
  refine ⟨a, o, by rw [hget, hp], ho, ?_⟩
  simp only [derefLink, vindex, hget, hp, ho]

theorem range_assert_iff (e n : Int) : ¬ (e ≥ 0 ∧ e < n) ↔ (e < 0 ∨ e ≥ n) := by
  constructor
  · intro h
    by_contra hcon
    push_neg at hcon
    exact h ⟨hcon.1, hcon.2⟩
  · rintro (h | h) ⟨h1, h2⟩
    · omega
    · omega

theorem WriteFlit_spec (x : Ext) (w : Sim) (hw : Allocated w) (f : Ptr) (e : Int) :
    (WriteFlit x w f e = .assertFail ↔ (e < 0 ∨ e ≥ w._nodes)) ∧
    (0 ≤ e → e < w._nodes → ∃ a o, w._inject[e.toNat]? = some (some a) ∧
      w.heap[a]? = some (some o) ∧
      WriteFlit x w f e = .ok { w with heap := w.heap.set a (some (x.send o f)) }) := by
  obtain ⟨_, ⟨_, hlen, _, _, _, _, _, _⟩, ⟨hl, _, _, _, _, _, _⟩⟩ := hw
  have hin : 0 ≤ e → e < w._nodes → ∃ a o, w._inject[e.toNat]? = some (some a) ∧
      w.heap[a]? = some (some o) ∧
      WriteFlit x w f e = .ok { w with heap := w.heap.set a (some (x.send o f)) } := by
    intro h0 h1
    obtain ⟨a, o, h2, h3, h4⟩ := derefLink_of_live w w._inject e hlen
      (fun p hp => isFlitChannel_live w p (hl p hp)) h0 h1
    refine ⟨a, o, h2, h3, ?_⟩
    unfold WriteFlit
    rw [if_neg (not_not.mpr ⟨h0, h1⟩), h4]
  refine ⟨⟨?_, ?_⟩, hin⟩
  · intro h
    by_contra hcon
    push_neg at hcon
    obtain ⟨a, o, _, _, h5⟩ := hin (by omega) (by omega)
    rw [h5] at h
    cases h
  · intro h
    unfold WriteFlit
    rw [if_pos ((range_assert_iff e w._nodes).mpr h)]

theorem WriteCredit_spec (x : Ext) (w : Sim) (hw : Allocated w) (c : Ptr) (e : Int) :
    (WriteCredit x w c e = .assertFail ↔ (e < 0 ∨ e ≥ w._nodes)) ∧
    (0 ≤ e → e < w._nodes → ∃ a o, w._eject_cred[e.toNat]? = some (some a) ∧
      w.heap[a]? = some (some o) ∧
      WriteCredit x w c e = .ok { w with heap := w.heap.set a (some (x.send o c)) }) := by
  obtain ⟨_, ⟨_, _, _, _, hlen, _, _, _⟩, ⟨_, _, _, hl, _, _, _⟩⟩ := hw
  have hin : 0 ≤ e → e < w._nodes → ∃ a o, w._eject_cred[e.toNat]? = some (some a) ∧
      w.heap[a]? = some (some o) ∧
      WriteCredit x w c e = .ok { w with heap := w.heap.set a (some (x.send o c)) } := by
    intro h0 h1
    obtain ⟨a, o, h2, h3, h4⟩ := derefLink_of_live w w._eject_cred e hlen
      (fun p hp => isCreditChannel_live w p (hl p hp)) h0 h1
    refine ⟨a, o, h2, h3, ?_⟩
    unfold WriteCredit
    rw [if_neg (not_not.mpr ⟨h0, h1⟩), h4]
  refine ⟨⟨?_, ?_⟩, hin⟩
  · intro h
    by_contra hcon
    push_neg at hcon
    obtain ⟨a, o, _, _, h5⟩ := hin (by omega) (by omega)
    rw [h5] at h
    cases h
  · intro h
    unfold WriteCredit
    rw [if_pos ((range_assert_iff e w._nodes).mpr h)]

theorem ReadFlit_spec (x : Ext) (w : Sim) (hw : Allocated w) (e : Int) :
    (ReadFlit x w e = .assertFail ↔ (e < 0 ∨ e ≥ w._nodes)) ∧
    (0 ≤ e → e < w._nodes → ∃ a o, w._eject[e.toNat]? = some (some a) ∧
      w.heap[a]? = some (some o) ∧
      ReadFlit x w e =
        .ok ({ w with heap := w.heap.set a (some (x.receive o).2) }, (x.receive o).1)) := by
  obtain ⟨_, ⟨_, _, _, hlen, _, _, _, _⟩, ⟨_, _, hl, _, _, _, _⟩⟩ := hw
  have hin : 0 ≤ e → e < w._nodes → ∃ a o, w._eject[e.toNat]? = some (some a) ∧
      w.heap[a]? = some (some o) ∧
      ReadFlit x w e =
        .ok ({ w with heap := w.heap.set a (some (x.receive o).2) }, (x.receive o).1) := by
    intro h0 h1
    obtain ⟨a, o, h2, h3, h4⟩ := derefLink_of_live w w._eject e hlen
      (fun p hp => isFlitChannel_live w p (hl p hp)) h0 h1
    refine ⟨a, o, h2, h3, ?_⟩
    unfold ReadFlit
    rw [if_neg (not_not.mpr ⟨h0, h1⟩), h4]
  refine ⟨⟨?_, ?_⟩, hin⟩
  · intro h
    by_contra hcon
    push_neg at hcon
    obtain ⟨a, o, _, _, h5⟩ := hin (by omega) (by omega)
    rw [h5] at h
    cases h
  · intro h
    unfold ReadFlit
    rw [if_pos ((range_assert_iff e w._nodes).mpr h)]

theorem ReadCredit_spec (x : Ext) (w : Sim) (hw : Allocated w) (e : Int) :
    (ReadCredit x w e = .assertFail ↔ (e < 0 ∨ e ≥ w._nodes)) ∧
    (0 ≤ e → e < w._nodes → ∃ a o, w._inject_cred[e.toNat]? = some (some a) ∧
      w.heap[a]? = some (some o) ∧
      ReadCredit x w e =
        .ok ({ w with heap := w.heap.set a (some (x.receive o).2) }, (x.receive o).1)) := by
  obtain ⟨_, ⟨_, _, hlen, _, _, _, _, _⟩, ⟨_, hl, _, _, _, _, _⟩⟩ := hw
  have hin : 0 ≤ e → e < w._nodes → ∃ a o, w._inject_cred[e.toNat]? = some (some a) ∧
      w.heap[a]? = some (some o) ∧
      ReadCredit x w e =
        .ok ({ w with heap := w.heap.set a (some (x.receive o).2) }, (x.receive o).1) := by
    intro h0 h1
    obtain ⟨a, o, h2, h3, h4⟩ := derefLink_of_live w w._inject_cred e hlen
      (fun p hp => isCreditChannel_live w p (hl p hp)) h0 h1
    refine ⟨a, o, h2, h3, ?_⟩
    unfold ReadCredit
    rw [if_neg (not_not.mpr ⟨h0, h1⟩), h4]
  refine ⟨⟨?_, ?_⟩, hin⟩
  · intro h
    by_contra hcon
    push_neg at hcon
    obtain ⟨a, o, _, _, h5⟩ := hin (by omega) (by omega)
    rw [h5] at h
    cases h
  · intro h
    unfold ReadCredit
    rw [if_pos ((range_assert_iff e w._nodes).mpr h)]

/-- C2: on an allocated network, each of `WriteFlit`, `ReadFlit`, `WriteCredit` and
`ReadCredit` ends in the failed range assertion exactly when the endpoint id `e` is
negative or at least `_nodes` (so for `e = _nodes` and `e = -1` in particular); for
`0 <= e < _nodes` the call returns and is the `Send` or `Receive` of link `e` of its kind:
`_inject[e]`, `_eject[e]`, `_eject_cred[e]`, `_inject_cred[e]` respectively. -/
theorem C2_boundary_range (x : Ext) (w : Sim) (hw : Allocated w) (e : Int) (payload : Ptr) :
    ((WriteFlit x w payload e = .assertFail ↔ (e < 0 ∨ e ≥ w._nodes)) ∧
     (ReadFlit x w e = .assertFail ↔ (e < 0 ∨ e ≥ w._nodes)) ∧
     (WriteCredit x w payload e = .assertFail ↔ (e < 0 ∨ e ≥ w._nodes)) ∧
     (ReadCredit x w e = .assertFail ↔ (e < 0 ∨ e ≥ w._nodes))) ∧
    ((WriteFlit x w payload w._nodes = .assertFail ∧ WriteFlit x w payload (-1) = .assertFail) ∧
     (ReadFlit x w w._nodes = .assertFail ∧ ReadFlit x w (-1) = .assertFail) ∧
     (WriteCredit x w payload w._nodes = .assertFail ∧
        WriteCredit x w payload (-1) = .assertFail) ∧
     (ReadCredit x w w._nodes = .assertFail ∧ ReadCredit x w (-1) = .assertFail)) ∧
    (0 ≤ e → e < w._nodes →
      (∃ a o, w._inject[e.toNat]? = some (some a) ∧ w.heap[a]? = some (some o) ∧
        WriteFlit x w payload e =
          .ok { w with heap := w.heap.set a (some (x.send o payload)) }) ∧
      (∃ a o, w._eject[e.toNat]? = some (some a) ∧ w.heap[a]? = some (some o) ∧
        ReadFlit x w e =
          .ok ({ w with heap := w.heap.set a (some (x.receive o).2) }, (x.receive o).1)) ∧
      (∃ a o, w._eject_cred[e.toNat]? = some (some a) ∧ w.heap[a]? = some (some o) ∧
        WriteCredit x w payload e =
          .ok { w with heap := w.heap.set a (some (x.send o payload)) }) ∧
      (∃ a o, w._inject_cred[e.toNat]? = some (some a) ∧ w.heap[a]? = some (some o) ∧
        ReadCredit x w e =
          .ok ({ w with heap := w.heap.set a (some (x.receive o).2) }, (x.receive o).1))) := by
  refine ⟨⟨(WriteFlit_spec x w hw payload e).1, (ReadFlit_spec x w hw e).1,
      (WriteCredit_spec x w hw payload e).1, (ReadCredit_spec x w hw e).1⟩,
    ⟨⟨?_, ?_⟩, ⟨?_, ?_⟩, ⟨?_, ?_⟩, ⟨?_, ?_⟩⟩, ?_⟩
  · exact (WriteFlit_spec x w hw payload _).1.mpr (Or.inr (le_refl _))
  · exact (WriteFlit_spec x w hw payload _).1.mpr (Or.inl (by decide))
  · exact (ReadFlit_spec x w hw _).1.mpr (Or.inr (le_refl _))
  · exact (ReadFlit_spec x w hw _).1.mpr (Or.inl (by decide))
  · exact (WriteCredit_spec x w hw payload _).1.mpr (Or.inr (le_refl _))
  · exact (WriteCredit_spec x w hw payload _).1.mpr (Or.inl (by decide))
  · exact (ReadCredit_spec x w hw _).1.mpr (Or.inr (le_refl _))
  · exact (ReadCredit_spec x w hw _).1.mpr (Or.inl (by decide))
  · intro h0 h1
    exact ⟨(WriteFlit_spec x w hw payload e).2 h0 h1, (ReadFlit_spec x w hw e).2 h0 h1,
      (WriteCredit_spec x w hw payload e).2 h0 h1, (ReadCredit_spec x w hw e).2 h0 h1⟩

/-- Witness for C2: endpoint 1 of the one-endpoint network `loopNet` is out of range. -/
theorem C2_boundary_range_witness :
    Allocated loopNet ∧ ReadFlit idleExt loopNet 1 = .assertFail ∧
    ReadFlit idleExt loopNet (-1) = .assertFail :=
  ⟨by decide, (C2_boundary_range idleExt loopNet (by decide) 0 none).2.1.2.1⟩

/-! ### Allocation: the loops -/

theorem forRange_unchanged {β : Type} (body : Nat → Sim → Sim) (proj : Sim → β)
    (hb : ∀ i w, proj (body i w) = proj w) (k i : Nat) (w : Sim) :
    proj (forRange k i body w) = proj w := by
  induction k generalizing i w with
  | zero => rfl
  | succ k ih => rw [forRange, ih, hb]

theorem forRange_heap_length (body : Nat → Sim → Sim) (step : Nat)
    (hb : ∀ i w, (body i w).heap.length = w.heap.length + step) (k i : Nat) (w : Sim) :
    (forRange k i body w).heap.length = w.heap.length + step * k := by
  induction k generalizing i w with
  | zero => rfl
  | succ k ih => rw [forRange, ih, hb, Nat.mul_succ]; omega

theorem forRange_heap_prefix (body : Nat → Sim → Sim)
    (hb : ∀ i w, ∃ cells, (body i w).heap = w.heap ++ cells) (k i : Nat) (w : Sim) :
    ∃ cells, (forRange k i body w).heap = w.heap ++ cells := by
  induction k generalizing i w with
  | zero => exact ⟨[], by simp [forRange]⟩
  | succ k ih =>
    obtain ⟨c1, h1⟩ := hb i w
    obtain ⟨c2, h2⟩ := ih (i + 1) (body i w)
    exact ⟨c1 ++ c2, by rw [forRange, h2, h1, List.append_assoc]⟩

theorem forRange_registry (body : Nat → Sim → Sim) (step : Nat)
    (hh : ∀ i w, (body i w).heap.length = w.heap.length + step)
    (hr : ∀ i w, (body i w)._timed_modules =
      w._timed_modules ++ (List.range' w.heap.length step).map some) (k i : Nat) (w : Sim) :
    (forRange k i body w)._timed_modules =
      w._timed_modules ++ (List.range' w.heap.length (step * k)).map some := by
  induction k generalizing i w with
  | zero => simp [forRange]
  | succ k ih =>
    rw [forRange, ih, hr, hh, List.append_assoc, ← List.map_append]
    congr 2
    rw [Nat.mul_succ]
    exact List.range'_append_1 w.heap.length step (step * k)

/-- The entries a loop of `_Alloc` writes into one of its vectors: entry `j` receives the
address of the object created at offset `off` in iteration `j`. -/
theorem forRange_vector (body : Nat → Sim → Sim) (proj : Sim → List Ptr) (step off : Nat)
    (hh : ∀ i w, (body i w).heap.length = w.heap.length + step)
    (hp : ∀ i w, proj (body i w) = (proj w).set i (some (w.heap.length + off)))
    (k i : Nat) (w : Sim) (hlen : i + k ≤ (proj w).length) :
    (proj (forRange k i body w)).length = (proj w).length ∧
    (∀ j, i ≤ j → j < i + k →
      (proj (forRange k i body w))[j]? = some (some (w.heap.length + step * (j - i) + off))) ∧
    (∀ j, j < i ∨ i + k ≤ j → (proj (forRange k i body w))[j]? = (proj w)[j]?) := by
  induction k generalizing i w with
  | zero =>
    refine ⟨rfl, ?_, fun _ _ => rfl⟩
    intro j h1 h2
    omega
  | succ k ih =>
    have hlen1 : i + 1 + k ≤ (proj (body i w)).length := by
      rw [hp, List.length_set]; omega
    obtain ⟨h1, h2, h3⟩ := ih (i + 1) (body i w) hlen1
    refine ⟨?_, ?_, ?_⟩
    · rw [forRange, h1, hp, List.length_set]
    · intro j hj1 hj2
      rw [forRange]
      by_cases hji : j = i
      · subst hji
        rw [h3 j (Or.inl (Nat.lt_succ_self j)), hp, List.getElem?_set]
        have : j < (proj w).length := by omega
        simp [this]
      · rw [h2 j (by omega) (by omega), hh]
        have : step * (j - (i + 1)) + step = step * (j - i) := by
          have hji2 : j - i = (j - (i + 1)) + 1 := by omega
          rw [hji2, Nat.mul_succ]
        congr 2
        omega
    · intro j hj
      rw [forRange, h3 j (by omega), hp, List.getElem?_set]
      have : i ≠ j := by omega
      simp [this]

/-- A vector filled over its whole length by a loop of `_Alloc`. -/
theorem forRange_vector_full (body : Nat → Sim → Sim) (proj : Sim → List Ptr) (step off : Nat)
    (hh : ∀ i w, (body i w).heap.length = w.heap.length + step)
    (hp : ∀ i w, proj (body i w) = (proj w).set i (some (w.heap.length + off)))
    (n : Nat) (w : Sim) (hlen : (proj w).length = n) :
    proj (forRange n 0 body w) =
      (List.range n).map fun j => some (w.heap.length + step * j + off) := by
  obtain ⟨h1, h2, _⟩ := forRange_vector body proj step off hh hp n 0 w (by omega)
  apply List.ext_getElem?
  intro j
  by_cases hj : j < n
  · rw [h2 j (Nat.zero_le j) (by omega), List.getElem?_map, List.getElem?_range hj]
    rfl
  · rw [List.getElem?_eq_none (by omega), List.getElem?_eq_none (by simp; omega)]

theorem sameBase_refl (w : Sim) : SameBase w w :=
  ⟨rfl, rfl, rfl, rfl, rfl, rfl, rfl, rfl, rfl, rfl, rfl⟩

theorem sameBase_trans {w w1 w2 : Sim} (h1 : SameBase w w1) (h2 : SameBase w1 w2) :
    SameBase w w2 := by
  obtain ⟨a1, a2, a3, a4, a5, a6, a7, a8, a9, a10, a11⟩ := h1
  obtain ⟨b1, b2, b3, b4, b5, b6, b7, b8, b9, b10, b11⟩ := h2
  exact ⟨b1.trans a1, b2.trans a2, b3.trans a3, b4.trans a4, b5.trans a5, b6.trans a6,
    b7.trans a7, b8.trans a8, b9.trans a9, b10.trans a10, b11.trans a11⟩

theorem forRange_sameBase (body : Nat → Sim → Sim) (hb : ∀ i w, SameBase w (body i w))
    (k i : Nat) (w : Sim) : SameBase w (forRange k i body w) := by
  induction k generalizing i w with
  | zero => exact sameBase_refl w
  | succ k ih => exact sameBase_trans (hb i w) (ih (i + 1) (body i w))

theorem allocIngress_heap (i : Nat) (w : Sim) :
    (allocIngress i w).heap.length = w.heap.length + 2 := by
  simp [allocIngress, Sim.new]

theorem allocEgress_heap (i : Nat) (w : Sim) :
    (allocEgress i w).heap.length = w.heap.length + 2 := by
  simp [allocEgress, Sim.new]

theorem allocChan_heap (i : Nat) (w : Sim) :
    (allocChan i w).heap.length = w.heap.length + 3 := by
  simp [allocChan, Sim.new]

theorem allocIngress_registry (i : Nat) (w : Sim) :
    (allocIngress i w)._timed_modules =
      w._timed_modules ++ (List.range' w.heap.length 2).map some := by
  simp [allocIngress, Sim.new, List.range']

theorem allocEgress_registry (i : Nat) (w : Sim) :
    (allocEgress i w)._timed_modules =
      w._timed_modules ++ (List.range' w.heap.length 2).map some := by
  simp [allocEgress, Sim.new, List.range']

theorem allocChan_registry (i : Nat) (w : Sim) :
    (allocChan i w)._timed_modules =
      w._timed_modules ++ (List.range' w.heap.length 3).map some := by
  simp [allocChan, Sim.new, List.range']

/-- The internal-channel part of `_Alloc` on non-negative `_channels`. -/
theorem allocInternalPart_ok (w : Sim) (hc : 0 ≤ w._channels) :
    ∃ w1, allocInternalPart w = .ok w1 ∧
      (w1._chan = (List.range w._channels.toNat).map
          (fun j => some (w.heap.length + 3 * j + 0)) ∧
       w1._chan_cred = (List.range w._channels.toNat).map
          (fun j => some (w.heap.length + 3 * j + 1)) ∧
       w1._chan_handshake = (List.range w._channels.toNat).map
          (fun j => some (w.heap.length + 3 * j + 2))) ∧
      w1._timed_modules =
        w._timed_modules ++ (List.range' w.heap.length (3 * w._channels.toNat)).map some ∧
      w1.heap.length = w.heap.length + 3 * w._channels.toNat ∧
      (∃ cells, w1.heap = w.heap ++ cells) ∧
      (w1._inject = w._inject ∧ w1._inject_cred = w._inject_cred ∧
       w1._eject = w._eject ∧ w1._eject_cred = w._eject_cred) ∧
      SameBase w w1 := by
  unfold allocInternalPart
  simp only [vresize_nonneg _ _ _ hc]
  refine ⟨_, rfl, ⟨?_, ?_, ?_⟩, ?_, ?_, ?_, ⟨?_, ?_, ?_, ?_⟩, ?_⟩
  · exact forRange_vector_full allocChan (fun s => s._chan) 3 0 allocChan_heap
      (fun _ _ => rfl) _ _ (by simp; omega)
  · exact forRange_vector_full allocChan (fun s => s._chan_cred) 3 1 allocChan_heap
      (fun i s => by simp [allocChan, Sim.new]) _ _ (by simp; omega)
  · exact forRange_vector_full allocChan (fun s => s._chan_handshake) 3 2 allocChan_heap
      (fun i s => by simp [allocChan, Sim.new]) _ _ (by simp; omega)
  · exact forRange_registry allocChan 3 allocChan_heap allocChan_registry _ _ _
  · exact forRange_heap_length allocChan 3 allocChan_heap _ _ _
  · exact forRange_heap_prefix allocChan
      (fun i s => ⟨_, by simp only [allocChan, Sim.new, List.append_assoc]; rfl⟩) _ _ _
  · exact forRange_unchanged allocChan (fun s => s._inject) (fun _ _ => rfl) _ _ _
  · exact forRange_unchanged allocChan (fun s => s._inject_cred) (fun _ _ => rfl) _ _ _
  · exact forRange_unchanged allocChan (fun s => s._eject) (fun _ _ => rfl) _ _ _
  · exact forRange_unchanged allocChan (fun s => s._eject_cred) (fun _ _ => rfl) _ _ _
  · exact forRange_sameBase allocChan (fun _ s => sameBase_refl s) _ _ _

/-- The egress part of `_Alloc` (and the internal part it runs next) on non-negative
counts. -/
theorem allocEgressPart_ok (w : Sim) (hn : 0 ≤ w._nodes) (hc : 0 ≤ w._channels) :
    ∃ w1, allocEgressPart w = .ok w1 ∧
      (w1._eject = (List.range w._nodes.toNat).map
          (fun j => some (w.heap.length + 2 * j + 0)) ∧
       w1._eject_cred = (List.range w._nodes.toNat).map
          (fun j => some (w.heap.length + 2 * j + 1))) ∧
      (w1._chan = (List.range w._channels.toNat).map
          (fun j => some (w.heap.length + 2 * w._nodes.toNat + 3 * j + 0)) ∧
       w1._chan_cred = (List.range w._channels.toNat).map
          (fun j => some (w.heap.length + 2 * w._nodes.toNat + 3 * j + 1)) ∧
       w1._chan_handshake = (List.range w._channels.toNat).map
          (fun j => some (w.heap.length + 2 * w._nodes.toNat + 3 * j + 2))) ∧
      w1._timed_modules = w._timed_modules ++
        (List.range' w.heap.length (2 * w._nodes.toNat + 3 * w._channels.toNat)).map some ∧
      w1.heap.length = w.heap.length + (2 * w._nodes.toNat + 3 * w._channels.toNat) ∧
      (∃ cells, w1.heap = w.heap ++ cells) ∧
      (w1._inject = w._inject ∧ w1._inject_cred = w._inject_cred) ∧
      SameBase w w1 := by
  have hstart : ∀ v1 v2 : List Ptr, v1.length = w._nodes.toNat → v2.length = w._nodes.toNat →
      ∃ w1, allocInternalPart
          (forRange w._nodes.toNat 0 allocEgress { w with _eject := v1, _eject_cred := v2 }) =
          .ok w1 ∧
      (w1._eject = (List.range w._nodes.toNat).map
          (fun j => some (w.heap.length + 2 * j + 0)) ∧
       w1._eject_cred = (List.range w._nodes.toNat).map
          (fun j => some (w.heap.length + 2 * j + 1))) ∧
      (w1._chan = (List.range w._channels.toNat).map
          (fun j => some (w.heap.length + 2 * w._nodes.toNat + 3 * j + 0)) ∧
       w1._chan_cred = (List.range w._channels.toNat).map
          (fun j => some (w.heap.length + 2 * w._nodes.toNat + 3 * j + 1)) ∧
       w1._chan_handshake = (List.range w._channels.toNat).map
          (fun j => some (w.heap.length + 2 * w._nodes.toNat + 3 * j + 2))) ∧
      w1._timed_modules = w._timed_modules ++
        (List.range' w.heap.length (2 * w._nodes.toNat + 3 * w._channels.toNat)).map some ∧
      w1.heap.length = w.heap.length + (2 * w._nodes.toNat + 3 * w._channels.toNat) ∧
      (∃ cells, w1.heap = w.heap ++ cells) ∧
      (w1._inject = w._inject ∧ w1._inject_cred = w._inject_cred) ∧
      SameBase w w1 := by
    intro v1 v2 hv1 hv2
    generalize hw0 : ({ w with _eject := v1, _eject_cred := v2 } : Sim) = w0
    have e0 : w0.heap = w.heap := by rw [← hw0]
    have e1 : w0._timed_modules = w._timed_modules := by rw [← hw0]
    have e2 : w0._inject = w._inject ∧ w0._inject_cred = w._inject_cred := by
      rw [← hw0]; exact ⟨rfl, rfl⟩
    have e3 : SameBase w w0 := by rw [← hw0]; exact sameBase_refl w
    have e4 : w0._eject = v1 ∧ w0._eject_cred = v2 := by rw [← hw0]; exact ⟨rfl, rfl⟩
    generalize hw2 : forRange w._nodes.toNat 0 allocEgress w0 = w2
    have b2 : SameBase w0 w2 := by
      rw [← hw2]; exact forRange_sameBase allocEgress (fun _ s => sameBase_refl s) _ _ _
    have hc2 : 0 ≤ w2._channels := by rw [b2.2.2.2.2.1, e3.2.2.2.2.1]; exact hc
    have hch : w2._channels = w._channels := by rw [b2.2.2.2.2.1, e3.2.2.2.2.1]
    have hlen2 : w2.heap.length = w.heap.length + 2 * w._nodes.toNat := by
      rw [← hw2, forRange_heap_length allocEgress 2 allocEgress_heap, e0]
    have hreg2 : w2._timed_modules =
        w._timed_modules ++ (List.range' w.heap.length (2 * w._nodes.toNat)).map some := by
      rw [← hw2, forRange_registry allocEgress 2 allocEgress_heap allocEgress_registry, e0, e1]
    have hej : w2._eject = (List.range w._nodes.toNat).map
        (fun j => some (w.heap.length + 2 * j + 0)) := by
      have h := forRange_vector_full allocEgress (fun s => s._eject) 2 0 allocEgress_heap
        (fun _ _ => rfl) w._nodes.toNat w0 (by show w0._eject.length = _; rw [e4.1]; exact hv1)
      rw [e0, hw2] at h
      exact h
    have hejc : w2._eject_cred = (List.range w._nodes.toNat).map
        (fun j => some (w.heap.length + 2 * j + 1)) := by
      have h := forRange_vector_full allocEgress (fun s => s._eject_cred) 2 1 allocEgress_heap
        (fun i s => by simp [allocEgress, Sim.new]) w._nodes.toNat w0
        (by show w0._eject_cred.length = _; rw [e4.2]; exact hv2)
      rw [e0, hw2] at h
      exact h
    have hin2 : w2._inject = w._inject ∧ w2._inject_cred = w._inject_cred := by
      rw [← hw2]
      exact ⟨(forRange_unchanged allocEgress (fun s => s._inject) (fun _ _ => rfl) _ _ _).trans
          e2.1,
        (forRange_unchanged allocEgress (fun s => s._inject_cred) (fun _ _ => rfl) _ _ _).trans
          e2.2⟩
    have hpre2 : ∃ cells, w2.heap = w.heap ++ cells := by
      rw [← hw2, ← e0]
      exact forRange_heap_prefix allocEgress
        (fun i s => ⟨_, by simp only [allocEgress, Sim.new, List.append_assoc]; rfl⟩) _ _ _
    obtain ⟨w1, hrun, ⟨c1, c2, c3⟩, hreg, hheap, ⟨cells3, hpre3⟩, ⟨f1, f2, f3, f4⟩, hbase⟩ :=
      allocInternalPart_ok w2 hc2
    obtain ⟨cells2, hcells2⟩ := hpre2
    refine ⟨w1, hrun, ⟨by rw [f3, hej], by rw [f4, hejc]⟩, ⟨?_, ?_, ?_⟩, ?_, ?_, ?_,
      ⟨by rw [f1, hin2.1], by rw [f2, hin2.2]⟩, sameBase_trans (sameBase_trans e3 b2) hbase⟩
    · rw [c1, hlen2, hch]
    · rw [c2, hlen2, hch]
    · rw [c3, hlen2, hch]
    · rw [hreg, hreg2, hlen2, hch, List.append_assoc, ← List.map_append, List.range'_append_1,
        Nat.add_comm (3 * w._channels.toNat)]
    · rw [hheap, hlen2, hch, Nat.add_assoc]
    · exact ⟨cells2 ++ cells3, by rw [hpre3, hcells2, List.append_assoc]⟩
  unfold allocEgressPart
  simp only [vresize_nonneg _ _ _ hn]
  exact hstart _ _ (by simp; omega) (by simp; omega)

/-- The link part of `_Alloc` (lines 170-216) on non-negative counts: where each link
lives and what the registry holds afterwards. -/
theorem allocLinks_ok (w : Sim) (hn : 0 ≤ w._nodes) (hc : 0 ≤ w._channels) :
    ∃ w1, allocLinks w = .ok w1 ∧
      (w1._inject = (List.range w._nodes.toNat).map
          (fun j => some (w.heap.length + 2 * j + 0)) ∧
       w1._inject_cred = (List.range w._nodes.toNat).map
          (fun j => some (w.heap.length + 2 * j + 1))) ∧
      (w1._eject = (List.range w._nodes.toNat).map
          (fun j => some (w.heap.length + 2 * w._nodes.toNat + 2 * j + 0)) ∧
       w1._eject_cred = (List.range w._nodes.toNat).map
          (fun j => some (w.heap.length + 2 * w._nodes.toNat + 2 * j + 1))) ∧
      (w1._chan = (List.range w._channels.toNat).map
          (fun j => some (w.heap.length + 2 * w._nodes.toNat + 2 * w._nodes.toNat + 3 * j + 0)) ∧
       w1._chan_cred = (List.range w._channels.toNat).map
          (fun j => some (w.heap.length + 2 * w._nodes.toNat + 2 * w._nodes.toNat + 3 * j + 1)) ∧
       w1._chan_handshake = (List.range w._channels.toNat).map
          (fun j => some (w.heap.length + 2 * w._nodes.toNat + 2 * w._nodes.toNat + 3 * j + 2))) ∧
      w1._timed_modules = w._timed_modules ++
        (List.range' w.heap.length (4 * w._nodes.toNat + 3 * w._channels.toNat)).map some ∧
      w1.heap.length = w.heap.length + (4 * w._nodes.toNat + 3 * w._channels.toNat) ∧
      (∃ cells, w1.heap = w.heap ++ cells) ∧
      SameBase w w1 := by
  have hstart : ∀ v1 v2 : List Ptr, v1.length = w._nodes.toNat → v2.length = w._nodes.toNat →
      ∃ w1, allocEgressPart
          (forRange w._nodes.toNat 0 allocIngress { w with _inject := v1, _inject_cred := v2 }) =
          .ok w1 ∧
      (w1._inject = (List.range w._nodes.toNat).map
          (fun j => some (w.heap.length + 2 * j + 0)) ∧
       w1._inject_cred = (List.range w._nodes.toNat).map
          (fun j => some (w.heap.length + 2 * j + 1))) ∧
      (w1._eject = (List.range w._nodes.toNat).map
          (fun j => some (w.heap.length + 2 * w._nodes.toNat + 2 * j + 0)) ∧
       w1._eject_cred = (List.range w._nodes.toNat).map
          (fun j => some (w.heap.length + 2 * w._nodes.toNat + 2 * j + 1))) ∧
      (w1._chan = (List.range w._channels.toNat).map
          (fun j => some (w.heap.length + 2 * w._nodes.toNat + 2 * w._nodes.toNat + 3 * j + 0)) ∧
       w1._chan_cred = (List.range w._channels.toNat).map
          (fun j => some (w.heap.length + 2 * w._nodes.toNat + 2 * w._nodes.toNat + 3 * j + 1)) ∧
       w1._chan_handshake = (List.range w._channels.toNat).map
          (fun j => some (w.heap.length + 2 * w._nodes.toNat + 2 * w._nodes.toNat + 3 * j + 2))) ∧
      w1._timed_modules = w._timed_modules ++
        (List.range' w.heap.length (4 * w._nodes.toNat + 3 * w._channels.toNat)).map some ∧
      w1.heap.length = w.heap.length + (4 * w._nodes.toNat + 3 * w._channels.toNat) ∧
      (∃ cells, w1.heap = w.heap ++ cells) ∧
      SameBase w w1 := by
    intro v1 v2 hv1 hv2
    generalize hw0 : ({ w with _inject := v1, _inject_cred := v2 } : Sim) = w0
    have e0 : w0.heap = w.heap := by rw [← hw0]
    have e1 : w0._timed_modules = w._timed_modules := by rw [← hw0]
    have e3 : SameBase w w0 := by rw [← hw0]; exact sameBase_refl w
    have e4 : w0._inject = v1 ∧ w0._inject_cred = v2 := by rw [← hw0]; exact ⟨rfl, rfl⟩
    generalize hw2 : forRange w._nodes.toNat 0 allocIngress w0 = w2
    have b2 : SameBase w0 w2 := by
      rw [← hw2]; exact forRange_sameBase allocIngress (fun _ s => sameBase_refl s) _ _ _
    have hch : w2._channels = w._channels := by rw [b2.2.2.2.2.1, e3.2.2.2.2.1]
    have hnd : w2._nodes = w._nodes := by rw [b2.2.2.2.1, e3.2.2.2.1]
    have hlen2 : w2.heap.length = w.heap.length + 2 * w._nodes.toNat := by
      rw [← hw2, forRange_heap_length allocIngress 2 allocIngress_heap, e0]
    have hreg2 : w2._timed_modules =
        w._timed_modules ++ (List.range' w.heap.length (2 * w._nodes.toNat)).map some := by
      rw [← hw2, forRange_registry allocIngress 2 allocIngress_heap allocIngress_registry,
        e0, e1]
    have hin : w2._inject = (List.range w._nodes.toNat).map
        (fun j => some (w.heap.length + 2 * j + 0)) := by
      have h := forRange_vector_full allocIngress (fun s => s._inject) 2 0 allocIngress_heap
        (fun _ _ => rfl) w._nodes.toNat w0 (by show w0._inject.length = _; rw [e4.1]; exact hv1)
      rw [e0, hw2] at h
      exact h
    have hinc : w2._inject_cred = (List.range w._nodes.toNat).map
        (fun j => some (w.heap.length + 2 * j + 1)) := by
      have h := forRange_vector_full allocIngress (fun s => s._inject_cred) 2 1
        allocIngress_heap (fun i s => by simp [allocIngress, Sim.new]) w._nodes.toNat w0
        (by show w0._inject_cred.length = _; rw [e4.2]; exact hv2)
      rw [e0, hw2] at h
      exact h
    have hpre2 : ∃ cells, w2.heap = w.heap ++ cells := by
      rw [← hw2, ← e0]
      exact forRange_heap_prefix allocIngress
        (fun i s => ⟨_, by simp only [allocIngress, Sim.new, List.append_assoc]; rfl⟩) _ _ _
    obtain ⟨w1, hrun, ⟨c1, c2⟩, ⟨d1, d2, d3⟩, hreg, hheap, ⟨cells3, hpre3⟩, ⟨f1, f2⟩, hbase⟩ :=
      allocEgressPart_ok w2 (by rw [hnd]; exact hn) (by rw [hch]; exact hc)
    obtain ⟨cells2, hcells2⟩ := hpre2
    refine ⟨w1, hrun, ⟨by rw [f1, hin], by rw [f2, hinc]⟩, ⟨?_, ?_⟩, ⟨?_, ?_, ?_⟩, ?_, ?_, ?_,
      sameBase_trans (sameBase_trans e3 b2) hbase⟩
    · rw [c1, hlen2, hnd]
    · rw [c2, hlen2, hnd]
    · rw [d1, hlen2, hnd, hch]
    · rw [d2, hlen2, hnd, hch]
    · rw [d3, hlen2, hnd, hch]
    · rw [hreg, hreg2, hlen2, hch, hnd, List.append_assoc, ← List.map_append,
        List.range'_append_1]
      congr 3
      omega
    · rw [hheap, hlen2, hch, hnd]
      omega
    · exact ⟨cells2 ++ cells3, by rw [hpre3, hcells2, List.append_assoc]⟩
  unfold allocLinks
  simp only [vresize_nonneg _ _ _ hn]
  exact hstart _ _ (by simp; omega) (by simp; omega)

/-! ### The power-gate vectors -/

theorem vassign_ok {α : Type} (v : List α) (i : Int) (x : α) (h0 : 0 ≤ i)
    (h1 : i < (v.length : Int)) : vassign v i x = some (v.set i.toNat x) := by
  simp [vassign, h0, h1]

/-- An off-list whose ids are all indices of the vector is applied in full: the listed
entries become `false`, the others keep their value. -/
theorem applyOffList_ok (ids : List Int) :
    ∀ states : List Bool, (∀ id ∈ ids, 0 ≤ id ∧ id < (states.length : Int)) →
      ∃ states1, applyOffList ids states = some states1 ∧ states1.length = states.length ∧
        ∀ j : Nat, j < states.length →
          states1[j]? = some (if (j : Int) ∈ ids then false else states.getD j true) := by
  induction ids with
  | nil =>
    intro states _
    refine ⟨states, rfl, rfl, ?_⟩
    intro j hj
    simp [List.getD, List.getElem?_eq_getElem hj]
  | cons id rest ih =>
    intro states h
    obtain ⟨h0, h1⟩ := h id (List.mem_cons_self _ _)
    have hrest : ∀ id1 ∈ rest, 0 ≤ id1 ∧ id1 < ((states.set id.toNat false).length : Int) := by
      intro id1 hid1
      rw [List.length_set]
      exact h id1 (List.mem_cons_of_mem _ hid1)
    obtain ⟨states1, hrun, hlen, hget⟩ := ih (states.set id.toNat false) hrest
    refine ⟨states1, ?_, ?_, ?_⟩
    · simp only [applyOffList, vassign_ok states id false h0 h1, hrun]
    · rw [hlen, List.length_set]
    · intro j hj
      rw [hget j (by rw [List.length_set]; exact hj)]
      by_cases hjr : (j : Int) ∈ rest
      · simp [hjr]
      · by_cases hji : (j : Int) = id
        · have : id.toNat = j := by omega
          simp [hji, this, List.getD, List.getElem?_set, hj]
        · have : id.toNat ≠ j := by omega
          simp [hjr, hji, List.getD, List.getElem?_set, this]

theorem vresize_getD (v : List Bool) (n j : Nat) (hj : j < n) :
    (v.take n ++ List.replicate (n - v.length) true).getD j true = v.getD j true := by
  rw [List.getD_eq_getElem?_getD, List.getD_eq_getElem?_getD]
  by_cases hjl : j < v.length
  · rw [List.getElem?_append_left (by simp; omega), List.getElem?_take_of_lt hj]
  · have hlen : (v.take n).length ≤ j := by simp; omega
    rw [List.getElem?_append_right hlen, List.getElem?_eq_none (not_lt.mp hjl)]
    cases h : (List.replicate (n - v.length) true)[j - (List.take n v).length]? with
    | none => rfl
    | some b =>
      have hb := List.getElem?_mem h
      rw [List.mem_replicate] at hb
      simp [hb.2]

/-- The whole of `_Alloc` on non-negative counts and off-lists within range: it returns,
and the state it returns is described member by member. -/
theorem _Alloc_ok (w : Sim) (hs : 0 ≤ w._size) (hn : 0 ≤ w._nodes) (hc : 0 ≤ w._channels)
    (hoff : OffListsInRange w) :
    ∃ w1, _Alloc w = .ok w1 ∧
      (w1._inject = (List.range w._nodes.toNat).map
          (fun j => some (w.heap.length + 2 * j + 0)) ∧
       w1._inject_cred = (List.range w._nodes.toNat).map
          (fun j => some (w.heap.length + 2 * j + 1))) ∧
      (w1._eject = (List.range w._nodes.toNat).map
          (fun j => some (w.heap.length + 2 * w._nodes.toNat + 2 * j + 0)) ∧
       w1._eject_cred = (List.range w._nodes.toNat).map
          (fun j => some (w.heap.length + 2 * w._nodes.toNat + 2 * j + 1))) ∧
      (w1._chan = (List.range w._channels.toNat).map
          (fun j => some (w.heap.length + 2 * w._nodes.toNat + 2 * w._nodes.toNat + 3 * j + 0)) ∧
       w1._chan_cred = (List.range w._channels.toNat).map
          (fun j => some (w.heap.length + 2 * w._nodes.toNat + 2 * w._nodes.toNat + 3 * j + 1)) ∧
       w1._chan_handshake = (List.range w._channels.toNat).map
          (fun j => some (w.heap.length + 2 * w._nodes.toNat + 2 * w._nodes.toNat + 3 * j + 2))) ∧
      w1._timed_modules = w._timed_modules ++
        (List.range' w.heap.length (4 * w._nodes.toNat + 3 * w._channels.toNat)).map some ∧
      w1.heap.length = w.heap.length + (4 * w._nodes.toNat + 3 * w._channels.toNat) ∧
      (∃ cells, w1.heap = w.heap ++ cells) ∧
      (w1._size = w._size ∧ w1._nodes = w._nodes ∧ w1._channels = w._channels ∧
       w1.gNodes = w._nodes ∧ w1._routers.length = w._size.toNat) ∧
      (w1._core_states.length = w._size.toNat ∧
       ∀ j : Nat, j < w._size.toNat → w1._core_states[j]? =
         some (if (j : Int) ∈ w._off_cores then false else w._core_states.getD j true)) ∧
      (w1._router_states.length = w._size.toNat ∧
       ∀ j : Nat, j < w._size.toNat → w1._router_states[j]? =
         some (if (j : Int) ∈ w._off_routers then false else w._router_states.getD j true)) := by
  have hsent : w._size ≠ -1 ∧ w._nodes ≠ -1 ∧ w._channels ≠ -1 :=
    ⟨by omega, by omega, by omega⟩
  have hlenc : (w._core_states.take w._size.toNat ++
      List.replicate (w._size.toNat - w._core_states.length) true).length = w._size.toNat := by
    simp; omega
  have hlenr : (w._router_states.take w._size.toNat ++
      List.replicate (w._size.toNat - w._router_states.length) true).length = w._size.toNat := by
    simp; omega
  obtain ⟨cs, hcs, hcslen, hcsget⟩ := applyOffList_ok w._off_cores
    (w._core_states.take w._size.toNat ++
      List.replicate (w._size.toNat - w._core_states.length) true)
    (fun id hid => by rw [hlenc]; have := hoff.1 id hid; omega)
  obtain ⟨rs, hrs, hrslen, hrsget⟩ := applyOffList_ok w._off_routers
    (w._router_states.take w._size.toNat ++
      List.replicate (w._size.toNat - w._router_states.length) true)
    (fun id hid => by rw [hlenr]; have := hoff.2 id hid; omega)
  obtain ⟨w1, hrun, hi, he, hch, hreg, hheap, hpre, hbase⟩ := allocLinks_ok
    { w with _routers := w._routers.take w._size.toNat ++
               List.replicate (w._size.toNat - w._routers.length) none,
             gNodes := w._nodes, _core_states := cs, _router_states := rs } hn hc
  obtain ⟨b1, _, b3, b4, b5, _, _, _, b9, b10, b11⟩ := hbase
  refine ⟨w1, ?_, hi, he, hch, hreg, hheap, hpre, ⟨b3, b4, b5, b1, ?_⟩, ⟨?_, ?_⟩, ⟨?_, ?_⟩⟩
  · unfold _Alloc
    rw [if_neg (not_not.mpr hsent)]
    simp only [vresize_nonneg _ _ _ hs]
    unfold allocPowerGate
    simp only [vresize_nonneg _ _ _ hs, hcs, hrs]
    exact hrun
  · rw [b11]
    simp; omega
  · rw [b9, hcslen, hlenc]
  · intro j hj
    rw [b9, hcsget j (by rw [hlenc]; exact hj), vresize_getD _ _ _ hj]
  · rw [b10, hrslen, hlenr]
  · intro j hj
    rw [b10, hrsget j (by rw [hlenr]; exact hj), vresize_getD _ _ _ hj]

theorem mem_map_range_some (p : Ptr) (n b s off : Nat) :
    p ∈ (List.range n).map (fun j => some (b + s * j + off)) ↔
      ∃ j, j < n ∧ p = some (b + s * j + off) := by
  simp only [List.mem_map, List.mem_range]
  constructor
  · rintro ⟨j, hj, rfl⟩
    exact ⟨j, hj, rfl⟩
  · rintro ⟨j, hj, rfl⟩
    exact ⟨j, hj, rfl⟩

theorem mem_map_some_range' (p : Ptr) (b k : Nat) :
    p ∈ (List.range' b k).map some ↔ ∃ a, b ≤ a ∧ a < b + k ∧ p = some a := by
  simp only [List.mem_map, List.mem_range'_1]
  constructor
  · rintro ⟨a, ⟨h1, h2⟩, rfl⟩
    exact ⟨a, h1, h2, rfl⟩
  · rintro ⟨a, h1, h2, rfl⟩
    exact ⟨a, ⟨h1, h2⟩, rfl⟩

theorem getElem?_map_some_range' (b k i : Nat) (p : Ptr)
    (h : ((List.range' b k).map some)[i]? = some p) : p = some (b + i) := by
  rw [List.getElem?_map] at h
  cases hr : (List.range' b k)[i]? with
  | none => rw [hr] at h; cases h
  | some a =>
    rw [hr] at h
    obtain ⟨hlt, ha⟩ := List.getElem?_eq_some_iff.mp hr
    rw [List.getElem_range'_1] at ha
    simp only [Option.map_some', Option.some.injEq] at h
    rw [← h, ← ha]

theorem nodup_map_some_range' (b k : Nat) : ((List.range' b k).map some : List Ptr).Nodup :=
  (List.nodup_range' b k).map (Option.some_injective _)

/-- What follows from the addresses `_Alloc` hands out: the registry and the link vectors
hold the same pointers, each once, and the registry lists ingress before egress before
internal links. -/
theorem registry_of_addresses (w1 : Sim) (h n c : Nat)
    (i1 : w1._inject = (List.range n).map (fun j => some (h + 2 * j + 0)))
    (i2 : w1._inject_cred = (List.range n).map (fun j => some (h + 2 * j + 1)))
    (e1 : w1._eject = (List.range n).map (fun j => some (h + 2 * n + 2 * j + 0)))
    (e2 : w1._eject_cred = (List.range n).map (fun j => some (h + 2 * n + 2 * j + 1)))
    (c1 : w1._chan = (List.range c).map (fun j => some (h + 2 * n + 2 * n + 3 * j + 0)))
    (c2 : w1._chan_cred = (List.range c).map (fun j => some (h + 2 * n + 2 * n + 3 * j + 1)))
    (c3 : w1._chan_handshake =
      (List.range c).map (fun j => some (h + 2 * n + 2 * n + 3 * j + 2)))
    (hr : w1._timed_modules = (List.range' h (4 * n + 3 * c)).map some) :
    (∀ p, p ∈ w1._timed_modules ↔ p ∈ w1.links) ∧ w1._timed_modules.Nodup ∧
    w1.links.Nodup ∧
    (∀ (i j : Nat) (p q : Ptr), w1._timed_modules[i]? = some p →
        w1._timed_modules[j]? = some q →
        ((p ∈ w1._inject ∨ p ∈ w1._inject_cred) → (q ∈ w1._eject ∨ q ∈ w1._eject_cred) →
          i < j) ∧
        ((p ∈ w1._eject ∨ p ∈ w1._eject_cred) →
          (q ∈ w1._chan ∨ q ∈ w1._chan_cred ∨ q ∈ w1._chan_handshake) → i < j)) := by
  have hmem : ∀ p, p ∈ w1._timed_modules ↔ p ∈ w1.links := by
    intro p
    simp only [Sim.links, List.mem_append, hr, i1, i2, e1, e2, c1, c2, c3, mem_map_range_some,
      mem_map_some_range']
    constructor
    · rintro ⟨a, h1, h2, rfl⟩
      by_cases hA : a < h + 2 * n
      · rcases Nat.mod_two_eq_zero_or_one (a - h) with hm | hm
        · exact Or.inl (Or.inl (Or.inl (Or.inl (Or.inl (Or.inl
            ⟨(a - h) / 2, by omega, by congr 1; omega⟩)))))
        · exact Or.inl (Or.inl (Or.inl (Or.inl (Or.inl (Or.inr
            ⟨(a - h) / 2, by omega, by congr 1; omega⟩)))))
      · by_cases hB : a < h + 4 * n
        · rcases Nat.mod_two_eq_zero_or_one (a - h) with hm | hm
          · exact Or.inl (Or.inl (Or.inl (Or.inl (Or.inr
              ⟨(a - h - 2 * n) / 2, by omega, by congr 1; omega⟩))))
          · exact Or.inl (Or.inl (Or.inl (Or.inr
              ⟨(a - h - 2 * n) / 2, by omega, by congr 1; omega⟩)))
        · have h3 : (a - h - 4 * n) % 3 = 0 ∨ (a - h - 4 * n) % 3 = 1 ∨
              (a - h - 4 * n) % 3 = 2 := by omega
          rcases h3 with hm | hm | hm
          · exact Or.inl (Or.inl (Or.inr
              ⟨(a - h - 4 * n) / 3, by omega, by congr 1; omega⟩))
          · exact Or.inl (Or.inr ⟨(a - h - 4 * n) / 3, by omega, by congr 1; omega⟩)
          · exact Or.inr ⟨(a - h - 4 * n) / 3, by omega, by congr 1; omega⟩
    · rintro ((((((⟨j, hj, rfl⟩ | ⟨j, hj, rfl⟩) | ⟨j, hj, rfl⟩) | ⟨j, hj, rfl⟩) |
        ⟨j, hj, rfl⟩) | ⟨j, hj, rfl⟩) | ⟨j, hj, rfl⟩)
      all_goals exact ⟨_, by omega, by omega, rfl⟩
  have hnd : w1._timed_modules.Nodup := by rw [hr]; exact nodup_map_some_range' _ _
  have hlinks : w1.links.Nodup := by
    simp only [Sim.links, i1, i2, e1, e2, c1, c2, c3]
    have inj : ∀ (b s off : Nat), 0 < s → ∀ m : Nat,
        ((List.range m).map (fun j => (some (b + s * j + off) : Ptr))).Nodup := by
      intro b s off hs0 m
      refine (List.nodup_range m).map ?_
      intro x y hxy
      simp only [Option.some.injEq] at hxy
      have hxy1 : (b + s * x + off : Nat) = b + s * y + off := hxy
      have : s * x = s * y := by omega
      exact Nat.eq_of_mul_eq_mul_left hs0 this
    simp only [List.nodup_append, List.disjoint_left, List.mem_append, mem_map_range_some]
    refine ⟨⟨⟨⟨⟨⟨inj _ _ _ (by decide) _, inj _ _ _ (by decide) _, ?_⟩,
      inj _ _ _ (by decide) _, ?_⟩, inj _ _ _ (by decide) _, ?_⟩,
      inj _ _ _ (by decide) _, ?_⟩, inj _ _ _ (by decide) _, ?_⟩,
      inj _ _ _ (by decide) _, ?_⟩
    · rintro p ⟨j, _, rfl⟩ ⟨j1, _, h1⟩
      simp only [Option.some.injEq] at h1
      omega
    · rintro p (⟨j, _, rfl⟩ | ⟨j, _, rfl⟩) ⟨j1, _, h1⟩ <;>
        (simp only [Option.some.injEq] at h1; omega)
    · rintro p ((⟨j, _, rfl⟩ | ⟨j, _, rfl⟩) | ⟨j, _, rfl⟩) ⟨j1, _, h1⟩ <;>
        (simp only [Option.some.injEq] at h1; omega)
    · rintro p (((⟨j, _, rfl⟩ | ⟨j, _, rfl⟩) | ⟨j, _, rfl⟩) | ⟨j, _, rfl⟩) ⟨j1, _, h1⟩ <;>
        (simp only [Option.some.injEq] at h1; omega)
    · rintro p ((((⟨j, _, rfl⟩ | ⟨j, _, rfl⟩) | ⟨j, _, rfl⟩) | ⟨j, _, rfl⟩) | ⟨j, _, rfl⟩)
        ⟨j1, _, h1⟩ <;> (simp only [Option.some.injEq] at h1; omega)
    · rintro p (((((⟨j, _, rfl⟩ | ⟨j, _, rfl⟩) | ⟨j, _, rfl⟩) | ⟨j, _, rfl⟩) | ⟨j, _, rfl⟩) |
        ⟨j, _, rfl⟩) ⟨j1, _, h1⟩ <;> (simp only [Option.some.injEq] at h1; omega)
  refine ⟨hmem, hnd, hlinks, ?_⟩
  intro i j p q hp hq
  rw [hr] at hp hq
  have hp1 := getElem?_map_some_range' _ _ _ _ hp
  have hq1 := getElem?_map_some_range' _ _ _ _ hq
  subst hp1 hq1
  simp only [i1, i2, e1, e2, c1, c2, c3, mem_map_range_some, Option.some.injEq]
  refine ⟨?_, ?_⟩
  · rintro (⟨a, ha, h1⟩ | ⟨a, ha, h1⟩) (⟨b, hb, h2⟩ | ⟨b, hb, h2⟩) <;> omega
  · rintro (⟨a, ha, h1⟩ | ⟨a, ha, h1⟩) (⟨b, hb, h2⟩ | ⟨b, hb, h2⟩ | ⟨b, hb, h2⟩) <;> omega


theorem ctor_fields (heap : List (Option Obj)) (gNodes : Int) (config : Configuration)
    (name : String) (w0 : Sim) (h : BSNetwork.ctor heap gNodes config name = .ok w0) :
    w0._off_cores = config.off_cores ∧ w0._off_routers = config.off_routers ∧
    w0._core_states = [] ∧ w0._router_states = [] ∧ w0._timed_modules = [] ∧
    w0.heap = heap := by
  unfold BSNetwork.ctor at h
  dsimp only at h
  split at h
  · cases h
    exact ⟨rfl, rfl, rfl, rfl, rfl, rfl⟩
  · cases h

/-- C3, counterexample: one router and two endpoints.  With core 1 in the parked-cores
list (and `0 <= 1 < nodeCount`), `_Alloc` is undefined: the core-state vector has `_size = 1`
entries and `_core_states[1]` is written past its end.  With nothing parked `_Alloc`
returns, and the core-state vector has one entry for the two cores. -/
theorem C3_counterexample :
    (BSNetwork.ctor [] 0 parkCore1 "net" = .ok { freshNetwork with _off_cores := [1] } ∧
      (1 : Int) ∈ parkCore1.off_cores ∧
      _Alloc (({ freshNetwork with _off_cores := [1] } : Sim).setSizes 1 2 0) = .undefined) ∧
    (BSNetwork.ctor [] 0 parkNothing "net" = .ok freshNetwork ∧
      ∃ w1, _Alloc (freshNetwork.setSizes 1 2 0) = .ok w1 ∧ w1._nodes = 2 ∧
        w1._core_states = [true]) := by
  refine ⟨⟨by decide, by decide, rfl⟩, by decide, _, rfl, rfl, rfl⟩

/-- C3, amended: for a configuration whose off-list ids all lie in `[0, size)`, right
after construction and allocation both power-state vectors have `size` entries (one per
router id); core `c` with `0 <= c < size` is off exactly when it is listed in `off_cores`,
and router `r` with `0 <= r < size` is off exactly when it is listed in `off_routers`;
everything not listed is on. -/
theorem C3_power_states (heap : List (Option Obj)) (gNodes : Int) (config : Configuration)
    (name : String) (w0 : Sim) (size nodes channels : Int)
    (hctor : BSNetwork.ctor heap gNodes config name = .ok w0)
    (hs : 0 ≤ size) (hn : 0 ≤ nodes) (hc : 0 ≤ channels)
    (hcores : ∀ c ∈ config.off_cores, 0 ≤ c ∧ c < size)
    (hrouters : ∀ r ∈ config.off_routers, 0 ≤ r ∧ r < size) :
    ∃ w1, _Alloc (w0.setSizes size nodes channels) = .ok w1 ∧
      (w1._core_states.length = size.toNat ∧ w1._router_states.length = size.toNat) ∧
      (∀ c : Nat, c < size.toNat →
        w1._core_states[c]? = some (if (c : Int) ∈ config.off_cores then false else true)) ∧
      (∀ r : Nat, r < size.toNat →
        w1._router_states[r]? =
          some (if (r : Int) ∈ config.off_routers then false else true)) := by
  obtain ⟨f1, f2, f3, f4, _, _⟩ := ctor_fields heap gNodes config name w0 hctor
  have hoff : OffListsInRange (w0.setSizes size nodes channels) := by
    refine ⟨?_, ?_⟩
    · intro c hc1
      exact hcores c (f1 ▸ hc1)
    · intro r hr1
      exact hrouters r (f2 ▸ hr1)
  obtain ⟨w1, hrun, _, _, _, _, _, _, _, ⟨hcl, hcg⟩, ⟨hrl, hrg⟩⟩ :=
    _Alloc_ok (w0.setSizes size nodes channels) hs hn hc hoff
  refine ⟨w1, hrun, ⟨hcl, hrl⟩, ?_, ?_⟩
  · intro c hc1
    have h := hcg c hc1
    have e1 : (w0.setSizes size nodes channels)._off_cores = config.off_cores := f1
    have e2 : (w0.setSizes size nodes channels)._core_states = [] := f3
    rw [e1, e2] at h
    rw [h]
    simp
  · intro r hr1
    have h := hrg r hr1
    have e1 : (w0.setSizes size nodes channels)._off_routers = config.off_routers := f2
    have e2 : (w0.setSizes size nodes channels)._router_states = [] := f4
    rw [e1, e2] at h
    rw [h]
    simp

/-- Witness for C3: two routers, core 0 and router 1 parked. -/
theorem C3_power_states_witness :
    (BSNetwork.ctor [] 0 parkSome "net" =
        .ok { freshNetwork with _off_cores := [0], _off_routers := [1] } ∧
      (∀ c ∈ parkSome.off_cores, 0 ≤ c ∧ c < 2) ∧
      (∀ r ∈ parkSome.off_routers, 0 ≤ r ∧ r < 2)) ∧
    ∃ w1, _Alloc (({ freshNetwork with _off_cores := [0], _off_routers := [1] } : Sim).setSizes
        2 2 0) = .ok w1 ∧
      w1._core_states[0]? = some false ∧ w1._router_states[0]? = some true :=
  ⟨by decide,
   match C3_power_states [] 0 parkSome "net"
     { freshNetwork with _off_cores := [0], _off_routers := [1] } 2 2 0
     (by decide) (by decide) (by decide) (by decide) (by decide) (by decide) with
   | ⟨w1, h1, _, h3, h4⟩ => ⟨w1, h1, h3 0 (by decide), h4 0 (by decide)⟩⟩

/-! ### Destruction -/

theorem outcome_bind_ok {α : Type} (x : Outcome α) : x.bind .ok = x := by
  cases x <;> rfl

theorem outcome_bind_assoc {α β γ : Type} (x : Outcome α) (f : α → Outcome β)
    (g : β → Outcome γ) : (x.bind f).bind g = x.bind fun a => (f a).bind g := by
  cases x <;> rfl

theorem deleteAll_append (ps qs : List Ptr) (st : List (Option Obj) × List Addr) :
    deleteAll (ps ++ qs) st = (deleteAll ps st).bind (deleteAll qs) := by
  induction ps generalizing st with
  | nil => rfl
  | cons p ps ih =>
    simp only [List.cons_append, deleteAll, outcome_bind_assoc]
    congr 1
    funext st1
    exact ih st1

/-- A loop whose body releases the pointers `ptrs j` releases them all, in order. -/
theorem forRangeM_deleteAll (body : Nat → List (Option Obj) × List Addr →
      Outcome (List (Option Obj) × List Addr)) (ptrs : Nat → List Ptr) (k : Nat) :
    ∀ (i : Nat) (st : List (Option Obj) × List Addr),
      (∀ j, i ≤ j → j < i + k → ∀ st1, body j st1 = deleteAll (ptrs j) st1) →
      forRangeM k i body st = deleteAll ((List.range' i k).flatMap ptrs) st := by
  induction k with
  | zero => intro i st _; rfl
  | succ k ih =>
    intro i st hb
    rw [forRangeM, hb i (le_refl i) (by omega) st]
    simp only [List.range'_succ, List.flatMap_cons, deleteAll_append]
    have hrec := fun st1 => ih (i + 1) st1 (fun j h1 h2 => hb j (by omega) (by omega))
    cases hd : deleteAll (ptrs i) st with
    | ok s1 => simp only [Outcome.bind]; exact hrec s1
    | assertFail => rfl
    | lengthError r => rfl
    | undefined => rfl
    | fatal m => rfl

theorem deleteAt_eq (v : List Ptr) (i : Nat) (h : i < v.length)
    (st : List (Option Obj) × List Addr) : deleteAt v i st = deleteIfSet (ptrAt v i) st := by
  simp [deleteAt, vindex, ptrAt, List.getElem?_eq_getElem h]

theorem deleteAll_one (p : Ptr) (st : List (Option Obj) × List Addr) :
    deleteAll [p] st = deleteIfSet p st := by
  simp only [deleteAll]
  cases deleteIfSet p st <;> rfl

theorem deleteAll_two (p q : Ptr) (st : List (Option Obj) × List Addr) :
    deleteAll [p, q] st = (deleteIfSet p st).bind (deleteIfSet q) := by
  simp only [deleteAll]
  congr 1
  funext st1
  exact outcome_bind_ok _

theorem deleteAll_three (p q r : Ptr) (st : List (Option Obj) × List Addr) :
    deleteAll [p, q, r] st =
      ((deleteIfSet p st).bind (deleteIfSet q)).bind (deleteIfSet r) := by
  simp only [deleteAll, outcome_bind_assoc]
  congr 1
  funext st1
  congr 1
  funext st2
  exact outcome_bind_ok _

/-- With every vector as long as its count says, the destructor is the release of the
pointers of `dtorPtrs`, in that order. -/
theorem dtor_eq_deleteAll (w : Sim)
    (hlen : w._routers.length = w._size.toNat ∧
      w._inject.length = w._nodes.toNat ∧ w._inject_cred.length = w._nodes.toNat ∧
      w._eject.length = w._nodes.toNat ∧ w._eject_cred.length = w._nodes.toNat ∧
      w._chan.length = w._channels.toNat ∧ w._chan_cred.length = w._channels.toNat ∧
      w._chan_handshake.length = w._channels.toNat) :
    BSNetwork.dtor w = deleteAll (dtorPtrs w) (w.heap, []) := by
  obtain ⟨l1, l2, l3, l4, l5, l6, l7, l8⟩ := hlen
  unfold BSNetwork.dtor dtorPtrs
  rw [deleteAll_append, deleteAll_append, deleteAll_append, outcome_bind_assoc,
    outcome_bind_assoc]
  simp only [List.range_eq_range']
  rw [forRangeM_deleteAll _ (fun r => [ptrAt w._routers r]) _ 0 _
    (fun j _ hj st1 => by rw [deleteAll_one, deleteAt_eq _ _ (by omega)])]
  congr 1
  funext st1
  rw [forRangeM_deleteAll _ (fun s => [ptrAt w._inject s, ptrAt w._inject_cred s]) _ 0 _
    (fun j _ hj st2 => by
      rw [deleteAll_two, deleteAt_eq _ _ (by omega)]
      congr 1
      funext st3
      rw [deleteAt_eq _ _ (by omega)])]
  congr 1
  funext st2
  rw [forRangeM_deleteAll _ (fun s => [ptrAt w._eject s, ptrAt w._eject_cred s]) _ 0 _
    (fun j _ hj st3 => by
      rw [deleteAll_two, deleteAt_eq _ _ (by omega)]
      congr 1
      funext st4
      rw [deleteAt_eq _ _ (by omega)])]
  congr 1
  funext st3
  rw [forRangeM_deleteAll _
    (fun c => [ptrAt w._chan c, ptrAt w._chan_cred c, ptrAt w._chan_handshake c]) _ 0 _
    (fun j _ hj st4 => by
      rw [deleteAll_three, deleteAt_eq _ _ (by omega)]
      congr 1
      · congr 1
        funext st5
        rw [deleteAt_eq _ _ (by omega)]
      · funext st5
        rw [deleteAt_eq _ _ (by omega)])]

theorem isLive_set_none_ne (heap : List (Option Obj)) (a b : Addr) (h : a ≠ b) :
    isLive (heap.set a none) (some b) = isLive heap (some b) := by
  simp only [isLive, List.getElem?_set, h, if_false]

theorem freeAll_length (as : List Addr) (heap : List (Option Obj)) :
    (freeAll as heap).length = heap.length := by
  induction as generalizing heap with
  | nil => rfl
  | cons a as ih =>
    show (freeAll as (heap.set a none)).length = heap.length
    rw [ih, List.length_set]

theorem freeAll_not_mem (as : List Addr) (heap : List (Option Obj)) (b : Addr)
    (h : b ∉ as) : (freeAll as heap)[b]? = heap[b]? := by
  induction as generalizing heap with
  | nil => rfl
  | cons a as ih =>
    show (freeAll as (heap.set a none))[b]? = heap[b]?
    have hab : a ≠ b := fun e => h (e ▸ List.mem_cons_self _ _)
    rw [ih _ (fun hm => h (List.mem_cons_of_mem _ hm)), List.getElem?_set]
    simp only [hab, if_false]

theorem freeAll_mem (as : List Addr) (heap : List (Option Obj)) (b : Addr)
    (h : b ∈ as) (hb : b < heap.length) : (freeAll as heap)[b]? = some none := by
  induction as generalizing heap with
  | nil => cases h
  | cons a as ih =>
    show (freeAll as (heap.set a none))[b]? = some none
    by_cases hm : b ∈ as
    · exact ih _ hm (by rw [List.length_set]; exact hb)
    · have hab : a = b := by
        rcases List.mem_cons.mp h with e | e
        · exact e.symm
        · exact absurd e hm
      rw [freeAll_not_mem as _ b hm, List.getElem?_set]
      simp only [hab, if_true, hb]

/-- Releasing distinct live objects succeeds and empties exactly their cells. -/
theorem deleteAll_spec (ps : List Ptr) :
    ∀ st : List (Option Obj) × List Addr, ps.reduceOption.Nodup →
      (∀ a ∈ ps.reduceOption, isLive st.1 (some a) = true) →
      deleteAll ps st = .ok (freeAll ps.reduceOption st.1, st.2 ++ ps.reduceOption) := by
  induction ps with
  | nil =>
    intro st _ _
    simp [deleteAll, freeAll]
  | cons p ps ih =>
    intro st hnd hlive
    cases p with
    | none =>
      rw [List.reduceOption_cons_of_none] at hnd hlive ⊢
      simp only [deleteAll, deleteIfSet, Outcome.bind]
      exact ih st hnd hlive
    | some a =>
      rw [List.reduceOption_cons_of_some] at hnd hlive ⊢
      obtain ⟨hnot, hnd1⟩ := List.nodup_cons.mp hnd
      obtain ⟨a1, o, ha1, ho⟩ := (isLive_some_iff st.1 (some a)).mp
        (hlive a (List.mem_cons_self _ _))
      cases ha1
      have hlive1 : ∀ b ∈ ps.reduceOption, isLive (st.1.set a none) (some b) = true := by
        intro b hb
        have hab : a ≠ b := fun e => hnot (e ▸ hb)
        rw [isLive_set_none_ne _ _ _ hab]
        exact hlive b (List.mem_cons_of_mem _ hb)
      simp only [deleteAll, deleteIfSet, ho, Outcome.bind]
      rw [ih (st.1.set a none, st.2 ++ [a]) hnd1 hlive1]
      simp [freeAll]

theorem liveRouters_freeAll (as : List Addr) (heap : List (Option Obj)) :
    liveRouters (freeAll as heap) = (liveRouters heap).filter (fun a => decide (a ∉ as)) := by
  unfold liveRouters
  rw [freeAll_length, List.filter_filter]
  apply List.filter_congr
  intro a ha
  have hlt : a < heap.length := List.mem_range.mp ha
  by_cases hm : a ∈ as
  · rw [freeAll_mem as heap a hm hlt]
    simp [hm]
  · rw [freeAll_not_mem as heap a hm]
    simp [hm]

theorem mem_iff_ptrAt (v : List Ptr) (n : Nat) (hlen : v.length = n) (p : Ptr) :
    p ∈ v ↔ ∃ s, s < n ∧ ptrAt v s = p := by
  constructor
  · intro h
    obtain ⟨s, hs, e⟩ := List.mem_iff_getElem.mp h
    exact ⟨s, hlen ▸ hs, by simp [ptrAt, List.getElem?_eq_getElem hs, e]⟩
  · rintro ⟨s, hs, rfl⟩
    have hs1 : s < v.length := hlen ▸ hs
    simp only [ptrAt, List.getElem?_eq_getElem hs1, Option.getD_some]
    exact List.getElem_mem hs1

/-- With every vector as long as its count says, the destructor visits exactly the
entries of `_routers` and of the seven link vectors. -/
theorem mem_dtorPtrs (w : Sim)
    (hlen : w._routers.length = w._size.toNat ∧
      w._inject.length = w._nodes.toNat ∧ w._inject_cred.length = w._nodes.toNat ∧
      w._eject.length = w._nodes.toNat ∧ w._eject_cred.length = w._nodes.toNat ∧
      w._chan.length = w._channels.toNat ∧ w._chan_cred.length = w._channels.toNat ∧
      w._chan_handshake.length = w._channels.toNat) (p : Ptr) :
    p ∈ dtorPtrs w ↔ p ∈ w._routers ∨ p ∈ w.links := by
  obtain ⟨l1, l2, l3, l4, l5, l6, l7, l8⟩ := hlen
  simp only [dtorPtrs, Sim.links, List.mem_append, List.mem_flatMap, List.mem_range,
    List.mem_cons, List.mem_singleton, List.not_mem_nil, or_false,
    mem_iff_ptrAt _ _ l1, mem_iff_ptrAt _ _ l2, mem_iff_ptrAt _ _ l3, mem_iff_ptrAt _ _ l4,
    mem_iff_ptrAt _ _ l5, mem_iff_ptrAt _ _ l6, mem_iff_ptrAt _ _ l7, mem_iff_ptrAt _ _ l8]
  constructor
  · rintro (((⟨s, hs, rfl⟩ | ⟨s, hs, rfl | rfl⟩) | ⟨s, hs, rfl | rfl⟩) |
      ⟨s, hs, rfl | rfl | rfl⟩)
    · exact Or.inl ⟨s, hs, rfl⟩
    · exact Or.inr (Or.inl (Or.inl (Or.inl (Or.inl (Or.inl (Or.inl ⟨s, hs, rfl⟩))))))
    · exact Or.inr (Or.inl (Or.inl (Or.inl (Or.inl (Or.inl (Or.inr ⟨s, hs, rfl⟩))))))
    · exact Or.inr (Or.inl (Or.inl (Or.inl (Or.inl (Or.inr ⟨s, hs, rfl⟩)))))
    · exact Or.inr (Or.inl (Or.inl (Or.inl (Or.inr ⟨s, hs, rfl⟩))))
    · exact Or.inr (Or.inl (Or.inl (Or.inr ⟨s, hs, rfl⟩)))
    · exact Or.inr (Or.inl (Or.inr ⟨s, hs, rfl⟩))
    · exact Or.inr (Or.inr ⟨s, hs, rfl⟩)
  · rintro (⟨s, hs, rfl⟩ | ((((((⟨s, hs, rfl⟩ | ⟨s, hs, rfl⟩) | ⟨s, hs, rfl⟩) |
      ⟨s, hs, rfl⟩) | ⟨s, hs, rfl⟩) | ⟨s, hs, rfl⟩) | ⟨s, hs, rfl⟩))
    · exact Or.inl (Or.inl (Or.inl ⟨s, hs, rfl⟩))
    · exact Or.inl (Or.inl (Or.inr ⟨s, hs, Or.inl rfl⟩))
    · exact Or.inl (Or.inl (Or.inr ⟨s, hs, Or.inr rfl⟩))
    · exact Or.inl (Or.inr ⟨s, hs, Or.inl rfl⟩)
    · exact Or.inl (Or.inr ⟨s, hs, Or.inr rfl⟩)
    · exact Or.inr ⟨s, hs, Or.inl rfl⟩
    · exact Or.inr ⟨s, hs, Or.inr (Or.inl rfl)⟩
    · exact Or.inr ⟨s, hs, Or.inr (Or.inr rfl)⟩

/-- C8, counterexample: the destructor of the allocated network `loopNet` releases its
router (address 7) first and then the seven links; no router is live afterwards. -/
theorem C8_counterexample :
    Allocated loopNet ∧ liveRouters loopNet.heap = [7] ∧
    ∃ heap1, BSNetwork.dtor loopNet = .ok (heap1, [7, 0, 1, 2, 3, 4, 5, 6]) ∧
      liveRouters heap1 = [] :=
  ⟨by decide, by decide, _, rfl, by decide⟩

/-- C8, amended: on an allocated network whose held objects are distinct and live, the
destructor returns; it releases every link of the seven link vectors exactly once, and it
also releases every router held in `_routers`, exactly once; it releases nothing else;
the routers live afterwards are the routers that were live before and are not held in
`_routers`. -/
theorem C8_dtor_releases (w : Sim) (hw : Allocated w) (hown : Owned w) :
    ∃ heap1 released, BSNetwork.dtor w = .ok (heap1, released) ∧
      released = (dtorPtrs w).reduceOption ∧ released.Nodup ∧
      (∀ p ∈ w.links, ∃ a, p = some a ∧ released.countP (fun b => b = a) = 1) ∧
      (∀ a, some a ∈ w._routers → released.countP (fun b => b = a) = 1) ∧
      (∀ a ∈ released, some a ∈ w._routers ∨ some a ∈ w.links) ∧
      (∀ a ∈ released, heap1[a]? = some none) ∧
      (∀ a, a ∉ released → heap1[a]? = w.heap[a]?) ∧
      liveRouters heap1 =
        (liveRouters w.heap).filter (fun a => decide (some a ∉ w._routers)) := by
  obtain ⟨_, hlen, hk1, hk2, hk3, hk4, hk5, hk6, hk7⟩ := hw
  obtain ⟨hnd, hlive⟩ := hown
  have hmem : ∀ a, a ∈ (dtorPtrs w).reduceOption ↔ (some a ∈ w._routers ∨ some a ∈ w.links) := by
    intro a
    rw [List.reduceOption_mem_iff, mem_dtorPtrs w hlen]
  have hlinks : ∀ p ∈ w.links, isLive w.heap p = true := by
    intro p hp
    simp only [Sim.links, List.mem_append] at hp
    rcases hp with (((((hp | hp) | hp) | hp) | hp) | hp) | hp
    · exact isFlitChannel_live w p (hk1 p hp)
    · exact isCreditChannel_live w p (hk2 p hp)
    · exact isFlitChannel_live w p (hk3 p hp)
    · exact isCreditChannel_live w p (hk4 p hp)
    · exact isFlitChannel_live w p (hk5 p hp)
    · exact isCreditChannel_live w p (hk6 p hp)
    · exact isHandshakeChannel_live w p (hk7 p hp)
  have hlt : ∀ a ∈ (dtorPtrs w).reduceOption, a < w.heap.length := by
    intro a ha
    obtain ⟨a1, o, e, ho⟩ := (isLive_some_iff w.heap (some a)).mp (hlive a ha)
    cases e
    by_contra hcon
    rw [List.getElem?_eq_none (not_lt.mp hcon)] at ho
    cases ho
  refine ⟨freeAll (dtorPtrs w).reduceOption w.heap, (dtorPtrs w).reduceOption, ?_, rfl, hnd,
    ?_, ?_, ?_, ?_, ?_, ?_⟩
  · rw [dtor_eq_deleteAll w hlen, deleteAll_spec (dtorPtrs w) (w.heap, []) hnd hlive]
    simp
  · intro p hp
    obtain ⟨a, o, e, _⟩ := (isLive_some_iff w.heap p).mp (hlinks p hp)
    subst e
    exact ⟨a, rfl, countP_eq_one_of_nodup _ _ hnd ((hmem a).mpr (Or.inr hp))⟩
  · intro a ha
    exact countP_eq_one_of_nodup _ _ hnd ((hmem a).mpr (Or.inl ha))
  · intro a ha
    exact (hmem a).mp ha
  · intro a ha
    exact freeAll_mem _ _ a ha (hlt a ha)
  · intro a ha
    exact freeAll_not_mem _ _ a ha
  · rw [liveRouters_freeAll]
    apply List.filter_congr
    intro a ha
    have hrouter : ∃ id, w.heap[a]? = some (some (.router id)) := by
      unfold liveRouters at ha
      have h2 := (List.mem_filter.mp ha).2
      split at h2
      · rename_i id hid
        exact ⟨id, hid⟩
      · cases h2
    obtain ⟨id, hid⟩ := hrouter
    have hnotlink : some a ∉ w.links := by
      intro hp
      simp only [Sim.links, List.mem_append] at hp
      rcases hp with (((((hp | hp) | hp) | hp) | hp) | hp) | hp
      · have := hk1 _ hp; simp [Sim.isFlitChannel, hid] at this
      · have := hk2 _ hp; simp [Sim.isCreditChannel, hid] at this
      · have := hk3 _ hp; simp [Sim.isFlitChannel, hid] at this
      · have := hk4 _ hp; simp [Sim.isCreditChannel, hid] at this
      · have := hk5 _ hp; simp [Sim.isFlitChannel, hid] at this
      · have := hk6 _ hp; simp [Sim.isCreditChannel, hid] at this
      · have := hk7 _ hp; simp [Sim.isHandshakeChannel, hid] at this
    have : a ∈ (dtorPtrs w).reduceOption ↔ some a ∈ w._routers := by
      rw [hmem a]
      exact ⟨fun h => h.resolve_right hnotlink, Or.inl⟩
    simp only [this]

/-- Witness for C8: the destructor of `loopNet`. -/
theorem C8_dtor_releases_witness :
    (Allocated loopNet ∧ Owned loopNet) ∧
    ∃ heap1 released, BSNetwork.dtor loopNet = .ok (heap1, released) ∧
      released = (dtorPtrs loopNet).reduceOption ∧ released.Nodup :=
  ⟨by decide,
   match C8_dtor_releases loopNet (by decide) (by decide) with
   | ⟨heap1, released, h1, h2, h3, _⟩ => ⟨heap1, released, h1, h2, h3⟩⟩

/-! ### The channel map -/

theorem renderRows_append (a b : List (List Tok)) :
    renderRows (a ++ b) = renderRows a ++ renderRows b := by
  simp [renderRows, List.flatMap_append]

theorem renderRows_cons (r : List Tok) (rows : List (List Tok)) :
    renderRows (r :: rows) = r ++ [.endl] ++ renderRows rows := by
  simp [renderRows]

/-- A loop whose body writes one row per iteration writes that many rows. -/
theorem forRangeM_rows (body : Nat → List Tok → Outcome (List Tok)) (P : List Tok → Prop)
    (k : Nat) :
    ∀ i : Nat, (∀ j, i ≤ j → j < i + k →
        ∃ r, P r ∧ ∀ os1, body j os1 = .ok (os1 ++ (r ++ [.endl]))) →
      ∃ rows : List (List Tok), rows.length = k ∧ (∀ r ∈ rows, P r) ∧
        ∀ os, forRangeM k i body os = .ok (os ++ renderRows rows) := by
  induction k with
  | zero =>
    intro i _
    exact ⟨[], rfl, fun r hr => (List.not_mem_nil r hr).elim,
      fun os => by simp [forRangeM, renderRows]⟩
  | succ k ih =>
    intro i hb
    obtain ⟨r, hr, hrun⟩ := hb i (le_refl i) (by omega)
    obtain ⟨rows, hlen, hP, hrest⟩ := ih (i + 1) (fun j h1 h2 => hb j (by omega) (by omega))
    refine ⟨r :: rows, by rw [List.length_cons, hlen], ?_, ?_⟩
    · intro r1 hr1
      rcases List.mem_cons.mp hr1 with rfl | hmem
      · exact hr
      · exact hP r1 hmem
    · intro os
      rw [forRangeM, hrun os]
      simp only [hrest, renderRows_cons, List.append_assoc]

theorem countP_endl_renderRows (rows : List (List Tok)) (h : ∀ r ∈ rows, Tok.endl ∉ r) :
    (renderRows rows).countP (fun t => t = Tok.endl) = rows.length := by
  induction rows with
  | nil => rfl
  | cons r rows ih =>
    rw [renderRows_cons, List.countP_append, List.countP_append,
      ih (fun r1 hr1 => h r1 (List.mem_cons_of_mem _ hr1))]
    have h0 : r.countP (fun t => t = Tok.endl) = 0 := by
      rw [List.countP_eq_zero]
      intro t ht hte
      have : t = Tok.endl := by simpa using hte
      exact h r (List.mem_cons_self _ _) (this ▸ ht)
    rw [h0]
    simp
    omega

theorem isIngressRow_shape {pfx : String} {r : List Tok} (h : IsIngressRow pfx r) :
    r.head? = some (.str pfx) ∧ r[1]? = some (.str "-1,") ∧ Tok.endl ∉ r := by
  obtain ⟨a, b, c, rfl⟩ := h
  exact ⟨rfl, rfl, by simp⟩

theorem isInternalRow_shape {pfx : String} {r : List Tok} (h : IsInternalRow pfx r) :
    r.head? = some (.str pfx) ∧ Tok.endl ∉ r := by
  obtain ⟨a, b, c, d, rfl⟩ := h
  exact ⟨rfl, by simp⟩

theorem isEgressRow_shape {pfx : String} {r : List Tok} (h : IsEgressRow pfx r) :
    r.head? = some (.str pfx) ∧ r[5]? = some (.str "-1,") ∧ Tok.endl ∉ r := by
  obtain ⟨a, b, c, rfl⟩ := h
  exact ⟨rfl, rfl, by simp⟩

theorem bind_isSome {α β : Type} (x : Option α) (f : α → Option β)
    (h : (x.bind f).isSome = true) : ∃ a b, x = some a ∧ f a = some b := by
  cases x with
  | none => simp at h
  | some a =>
    cases hb : f a with
    | none => simp [hb] at h
    | some b => exact ⟨a, b, rfl, hb⟩

/-- C9: when every endpoint the export dereferences is bound (as in an allocated and
wired network), `DumpChannelMap` returns and appends to the stream exactly these rows,
each ended by `endl`: the header `source_router,source_port,dest_router,dest_port`, then
`_nodes` ingress rows whose source-router field is `-1`, then `_channels` internal rows,
then `_nodes` egress rows whose dest-router field is `-1`; that is
`1 + 2 * _nodes + _channels` lines, each starting with the prefix.  The rows do not depend
on the stream and the network is only read, so a second call appends the same rows
again. -/
theorem C9_channel_map (w : Sim) (hb : EndpointsBound w) (pfx : String) :
    ∃ ingress internal egress : List (List Tok),
      (∀ os, DumpChannelMap w os pfx = .ok (os ++
        renderRows ([.str pfx, .str "source_router,source_port,dest_router,dest_port"] ::
          (ingress ++ internal ++ egress)))) ∧
      (ingress.length = w._nodes.toNat ∧ internal.length = w._channels.toNat ∧
        egress.length = w._nodes.toNat) ∧
      ((∀ r ∈ ingress, IsIngressRow pfx r) ∧ (∀ r ∈ internal, IsInternalRow pfx r) ∧
        (∀ r ∈ egress, IsEgressRow pfx r)) ∧
      (∀ r ∈ [Tok.str pfx, Tok.str "source_router,source_port,dest_router,dest_port"] ::
          (ingress ++ internal ++ egress), r.head? = some (.str pfx) ∧ Tok.endl ∉ r) ∧
      (renderRows ([.str pfx, .str "source_router,source_port,dest_router,dest_port"] ::
          (ingress ++ internal ++ egress))).countP (fun t => t = Tok.endl) =
        1 + 2 * w._nodes.toNat + w._channels.toNat ∧
      (∀ os, (DumpChannelMap w os pfx).bind (fun os1 => DumpChannelMap w os1 pfx) =
        .ok (os ++
          renderRows ([.str pfx, .str "source_router,source_port,dest_router,dest_port"] ::
            (ingress ++ internal ++ egress)) ++
          renderRows ([.str pfx, .str "source_router,source_port,dest_router,dest_port"] ::
            (ingress ++ internal ++ egress)))) := by
  obtain ⟨hb1, hb2, hb3⟩ := hb
  obtain ⟨ingress, hl1, hP1, hrun1⟩ := forRangeM_rows (dumpIngressRow w pfx) (IsIngressRow pfx)
    w._nodes.toNat 0 (by
      intro j _ hj
      obtain ⟨fc, id, h1, h2⟩ := bind_isSome _ _ (hb1 j (by omega))
      refine ⟨_, ⟨fc.routerSourcePort, id, fc.routerSinkPort, rfl⟩, ?_⟩
      intro os1
      simp only [dumpIngressRow, h1, h2, List.cons_append, List.nil_append])
  obtain ⟨internal, hl2, hP2, hrun2⟩ := forRangeM_rows (dumpChanRow w pfx) (IsInternalRow pfx)
    w._channels.toNat 0 (by
      intro j _ hj
      obtain ⟨fc, id2, h1, h2⟩ := bind_isSome _ _ (hb2 j (by omega))
      obtain ⟨id1, id3, h3, h4⟩ := bind_isSome _ _ (h2 ▸ rfl :
        ((getRouterID w fc.routerSource).bind fun _ => getRouterID w fc.routerSink).isSome = true)
      refine ⟨_, ⟨id1, fc.routerSourcePort, id3, fc.routerSinkPort, rfl⟩, ?_⟩
      intro os1
      simp only [dumpChanRow, h1, h3, h4, List.cons_append, List.nil_append])
  obtain ⟨egress, hl3, hP3, hrun3⟩ := forRangeM_rows (dumpEgressRow w pfx) (IsEgressRow pfx)
    w._nodes.toNat 0 (by
      intro j _ hj
      obtain ⟨fc, id, h1, h2⟩ := bind_isSome _ _ (hb3 j (by omega))
      refine ⟨_, ⟨id, fc.routerSourcePort, fc.routerSinkPort, rfl⟩, ?_⟩
      intro os1
      simp only [dumpEgressRow, h1, h2, List.cons_append, List.nil_append])
  have hrun : ∀ os, DumpChannelMap w os pfx = .ok (os ++
      renderRows ([.str pfx, .str "source_router,source_port,dest_router,dest_port"] ::
        (ingress ++ internal ++ egress))) := by
    intro os
    simp only [DumpChannelMap, channelMapHeader, hrun1, hrun2, hrun3, Outcome.bind,
      renderRows_cons, renderRows_append, List.append_assoc, List.cons_append,
      List.nil_append]
  have hshape : ∀ r ∈ [Tok.str pfx, Tok.str "source_router,source_port,dest_router,dest_port"] ::
      (ingress ++ internal ++ egress), r.head? = some (.str pfx) ∧ Tok.endl ∉ r := by
    intro r hr
    rcases List.mem_cons.mp hr with rfl | hr
    · exact ⟨rfl, by simp⟩
    · rcases List.mem_append.mp hr with hr | hr
      · rcases List.mem_append.mp hr with hr | hr
        · exact ⟨(isIngressRow_shape (hP1 r hr)).1, (isIngressRow_shape (hP1 r hr)).2.2⟩
        · exact (isInternalRow_shape (hP2 r hr))
      · exact ⟨(isEgressRow_shape (hP3 r hr)).1, (isEgressRow_shape (hP3 r hr)).2.2⟩
  refine ⟨ingress, internal, egress, hrun, ⟨hl1, hl2, hl3⟩, ⟨hP1, hP2, hP3⟩, hshape, ?_, ?_⟩
  · rw [countP_endl_renderRows _ (fun r hr => (hshape r hr).2)]
    simp only [List.length_cons, List.length_append, hl1, hl2, hl3]
    omega
  · intro os
    rw [hrun os]
    simp only [Outcome.bind]
    rw [hrun]

/-- Witness for C9: the channel map of the four-endpoint star has four ingress rows, no
internal row and four egress rows. -/
theorem C9_channel_map_witness :
    (Allocated starNet ∧ EndpointsBound starNet) ∧
    ∃ ingress internal egress : List (List Tok),
      (∀ os, DumpChannelMap starNet os "# " = .ok (os ++
        renderRows ([.str "# ", .str "source_router,source_port,dest_router,dest_port"] ::
          (ingress ++ internal ++ egress)))) ∧
      (ingress.length = 4 ∧ internal.length = 0 ∧ egress.length = 4) :=
  ⟨by decide,
   match C9_channel_map starNet (by decide) "# " with
   | ⟨ingress, internal, egress, h1, h2, _⟩ => ⟨ingress, internal, egress, h1, h2⟩⟩

/-! ### Allocation yields an allocated network -/

theorem getElem?_append_some {α : Type} (l cells : List α) (a : Nat) (x : α)
    (h : l[a]? = some x) : (l ++ cells)[a]? = some x := by
  have hlt : a < l.length := by
    by_contra hcon
    rw [List.getElem?_eq_none (not_lt.mp hcon)] at h
    cases h
  rw [List.getElem?_append_left hlt, h]

theorem isFlitChannel_ext (w w1 : Sim) (cells : List (Option Obj))
    (h : w1.heap = w.heap ++ cells) (p : Ptr) (hp : w.isFlitChannel p = true) :
    w1.isFlitChannel p = true := by
  cases p with
  | none => simp [Sim.isFlitChannel] at hp
  | some a =>
    simp only [Sim.isFlitChannel] at hp ⊢
    split at hp
    · rename_i fc hfc
      rw [h, getElem?_append_some _ _ _ _ hfc]
    · cases hp

theorem isCreditChannel_ext (w w1 : Sim) (cells : List (Option Obj))
    (h : w1.heap = w.heap ++ cells) (p : Ptr) (hp : w.isCreditChannel p = true) :
    w1.isCreditChannel p = true := by
  cases p with
  | none => simp [Sim.isCreditChannel] at hp
  | some a =>
    simp only [Sim.isCreditChannel] at hp ⊢
    split at hp
    · rename_i fc hfc
      rw [h, getElem?_append_some _ _ _ _ hfc]
    · cases hp

theorem isHandshakeChannel_ext (w w1 : Sim) (cells : List (Option Obj))
    (h : w1.heap = w.heap ++ cells) (p : Ptr) (hp : w.isHandshakeChannel p = true) :
    w1.isHandshakeChannel p = true := by
  cases p with
  | none => simp [Sim.isHandshakeChannel] at hp
  | some a =>
    simp only [Sim.isHandshakeChannel] at hp ⊢
    split at hp
    · rename_i fc hfc
      rw [h, getElem?_append_some _ _ _ _ hfc]
    · cases hp

/-- A step that only appends heap cells, and whose new vector entries are old entries or
point to live channels of the right kind, keeps the allocation invariant. -/
theorem partlyAllocated_step (w w1 : Sim) (cells : List (Option Obj))
    (hheap : w1.heap = w.heap ++ cells) (hw : PartlyAllocated w)
    (h1 : ∀ p ∈ w1._inject, p ≠ none → p ∈ w._inject ∨ w1.isFlitChannel p = true)
    (h2 : ∀ p ∈ w1._inject_cred, p ≠ none → p ∈ w._inject_cred ∨ w1.isCreditChannel p = true)
    (h3 : ∀ p ∈ w1._eject, p ≠ none → p ∈ w._eject ∨ w1.isFlitChannel p = true)
    (h4 : ∀ p ∈ w1._eject_cred, p ≠ none → p ∈ w._eject_cred ∨ w1.isCreditChannel p = true)
    (h5 : ∀ p ∈ w1._chan, p ≠ none → p ∈ w._chan ∨ w1.isFlitChannel p = true)
    (h6 : ∀ p ∈ w1._chan_cred, p ≠ none → p ∈ w._chan_cred ∨ w1.isCreditChannel p = true)
    (h7 : ∀ p ∈ w1._chan_handshake, p ≠ none →
      p ∈ w._chan_handshake ∨ w1.isHandshakeChannel p = true) :
    PartlyAllocated w1 := by
  obtain ⟨a1, a2, a3, a4, a5, a6, a7⟩ := hw
  refine ⟨?_, ?_, ?_, ?_, ?_, ?_, ?_⟩
  · intro p hp hne
    exact (h1 p hp hne).elim (fun hm => isFlitChannel_ext w w1 cells hheap p (a1 p hm hne)) id
  · intro p hp hne
    exact (h2 p hp hne).elim (fun hm => isCreditChannel_ext w w1 cells hheap p (a2 p hm hne)) id
  · intro p hp hne
    exact (h3 p hp hne).elim (fun hm => isFlitChannel_ext w w1 cells hheap p (a3 p hm hne)) id
  · intro p hp hne
    exact (h4 p hp hne).elim (fun hm => isCreditChannel_ext w w1 cells hheap p (a4 p hm hne)) id
  · intro p hp hne
    exact (h5 p hp hne).elim (fun hm => isFlitChannel_ext w w1 cells hheap p (a5 p hm hne)) id
  · intro p hp hne
    exact (h6 p hp hne).elim (fun hm => isCreditChannel_ext w w1 cells hheap p (a6 p hm hne)) id
  · intro p hp hne
    exact (h7 p hp hne).elim
      (fun hm => isHandshakeChannel_ext w w1 cells hheap p (a7 p hm hne)) id

theorem mem_resized {α : Type} (v : List (Option α)) (n m : Nat) (p : Option α)
    (hp : p ∈ v.take n ++ List.replicate m none) (hne : p ≠ none) : p ∈ v := by
  rcases List.mem_append.mp hp with h | h
  · exact List.mem_of_mem_take h
  · exact absurd (List.mem_replicate.mp h).2 hne

theorem cell_at_0 {α : Type} (l rest : List α) (x : α) :
    (l ++ x :: rest)[l.length]? = some x := by
  rw [List.getElem?_append_right (le_refl _), Nat.sub_self]
  simp

theorem cell_at_1 {α : Type} (l rest : List α) (x y : α) :
    (l ++ x :: y :: rest)[l.length + 1]? = some y := by
  rw [List.getElem?_append_right (Nat.le_add_right _ _), Nat.add_sub_cancel_left]
  simp

theorem cell_at_2 {α : Type} (l rest : List α) (x y z : α) :
    (l ++ x :: y :: z :: rest)[l.length + 2]? = some z := by
  rw [List.getElem?_append_right (Nat.le_add_right _ _), Nat.add_sub_cancel_left]
  simp

theorem allocIngress_cells (s : Nat) (w : Sim) :
    (allocIngress s w).heap = w.heap ++
      [some (.flitChannel ((FlitChannel.new (w.name ++ "_fchan_ingress" ++ toString s)
          w._classes).SetSource none s)),
       some (.creditChannel (w.name ++ "_cchan_ingress" ++ toString s))] := by
  simp only [allocIngress, Sim.new, List.append_assoc]
  rfl

theorem allocEgress_cells (d : Nat) (w : Sim) :
    (allocEgress d w).heap = w.heap ++
      [some (.flitChannel ((FlitChannel.new (w.name ++ "_fchan_egress" ++ toString d)
          w._classes).SetSink none d)),
       some (.creditChannel (w.name ++ "_cchan_egress" ++ toString d))] := by
  simp only [allocEgress, Sim.new, List.append_assoc]
  rfl

theorem allocChan_cells (c : Nat) (w : Sim) :
    (allocChan c w).heap = w.heap ++
      [some (.flitChannel (FlitChannel.new (w.name ++ "_fchan_" ++ toString c) w._classes)),
       some (.creditChannel (w.name ++ "_cchan_" ++ toString c)),
       some (.handshakeChannel (w.name ++ "_hchan_" ++ toString c))] := by
  simp only [allocChan, Sim.new, List.append_assoc]
  rfl

theorem partlyAllocated_allocIngress (s : Nat) (w : Sim) (hw : PartlyAllocated w) :
    PartlyAllocated (allocIngress s w) := by
  have e1 : (allocIngress s w)._inject = w._inject.set s (some w.heap.length) := rfl
  have e2 : (allocIngress s w)._inject_cred =
      w._inject_cred.set s (some (w.heap.length + 1)) := by simp [allocIngress, Sim.new]
  refine partlyAllocated_step w (allocIngress s w) _ (allocIngress_cells s w) hw
    ?_ ?_ (fun p hp _ => Or.inl hp) (fun p hp _ => Or.inl hp) (fun p hp _ => Or.inl hp)
    (fun p hp _ => Or.inl hp) (fun p hp _ => Or.inl hp)
  · intro p hp _
    rw [e1] at hp
    rcases List.mem_or_eq_of_mem_set hp with h | h
    · exact Or.inl h
    · right
      subst h
      simp only [Sim.isFlitChannel, allocIngress_cells, cell_at_0]
  · intro p hp _
    rw [e2] at hp
    rcases List.mem_or_eq_of_mem_set hp with h | h
    · exact Or.inl h
    · right
      subst h
      simp only [Sim.isCreditChannel, allocIngress_cells, cell_at_1]

theorem partlyAllocated_allocEgress (d : Nat) (w : Sim) (hw : PartlyAllocated w) :
    PartlyAllocated (allocEgress d w) := by
  have e1 : (allocEgress d w)._eject = w._eject.set d (some w.heap.length) := rfl
  have e2 : (allocEgress d w)._eject_cred =
      w._eject_cred.set d (some (w.heap.length + 1)) := by simp [allocEgress, Sim.new]
  refine partlyAllocated_step w (allocEgress d w) _ (allocEgress_cells d w) hw
    (fun p hp _ => Or.inl hp) (fun p hp _ => Or.inl hp) ?_ ?_ (fun p hp _ => Or.inl hp)
    (fun p hp _ => Or.inl hp) (fun p hp _ => Or.inl hp)
  · intro p hp _
    rw [e1] at hp
    rcases List.mem_or_eq_of_mem_set hp with h | h
    · exact Or.inl h
    · right
      subst h
      simp only [Sim.isFlitChannel, allocEgress_cells, cell_at_0]
  · intro p hp _
    rw [e2] at hp
    rcases List.mem_or_eq_of_mem_set hp with h | h
    · exact Or.inl h
    · right
      subst h
      simp only [Sim.isCreditChannel, allocEgress_cells, cell_at_1]

theorem partlyAllocated_allocChan (c : Nat) (w : Sim) (hw : PartlyAllocated w) :
    PartlyAllocated (allocChan c w) := by
  have e1 : (allocChan c w)._chan = w._chan.set c (some w.heap.length) := rfl
  have e2 : (allocChan c w)._chan_cred =
      w._chan_cred.set c (some (w.heap.length + 1)) := by simp [allocChan, Sim.new]
  have e3 : (allocChan c w)._chan_handshake =
      w._chan_handshake.set c (some (w.heap.length + 2)) := by simp [allocChan, Sim.new]
  refine partlyAllocated_step w (allocChan c w) _ (allocChan_cells c w) hw
    (fun p hp _ => Or.inl hp) (fun p hp _ => Or.inl hp) (fun p hp _ => Or.inl hp)
    (fun p hp _ => Or.inl hp) ?_ ?_ ?_
  · intro p hp _
    rw [e1] at hp
    rcases List.mem_or_eq_of_mem_set hp with h | h
    · exact Or.inl h
    · right
      subst h
      simp only [Sim.isFlitChannel, allocChan_cells, cell_at_0]
  · intro p hp _
    rw [e2] at hp
    rcases List.mem_or_eq_of_mem_set hp with h | h
    · exact Or.inl h
    · right
      subst h
      simp only [Sim.isCreditChannel, allocChan_cells, cell_at_1]
  · intro p hp _
    rw [e3] at hp
    rcases List.mem_or_eq_of_mem_set hp with h | h
    · exact Or.inl h
    · right
      subst h
      simp only [Sim.isHandshakeChannel, allocChan_cells, cell_at_2]

theorem partlyAllocated_forRange (body : Nat → Sim → Sim)
    (hb : ∀ i w, PartlyAllocated w → PartlyAllocated (body i w)) (k i : Nat) (w : Sim)
    (hw : PartlyAllocated w) : PartlyAllocated (forRange k i body w) := by
  induction k generalizing i w with
  | zero => exact hw
  | succ k ih => exact ih (i + 1) (body i w) (hb i w hw)

/-- A step that leaves the heap alone and adds only null entries to the link vectors keeps
the allocation invariant. -/
theorem partlyAllocated_of_entries (w w1 : Sim) (hheap : w1.heap = w.heap)
    (hw : PartlyAllocated w)
    (h1 : ∀ p ∈ w1._inject, p ≠ none → p ∈ w._inject)
    (h2 : ∀ p ∈ w1._inject_cred, p ≠ none → p ∈ w._inject_cred)
    (h3 : ∀ p ∈ w1._eject, p ≠ none → p ∈ w._eject)
    (h4 : ∀ p ∈ w1._eject_cred, p ≠ none → p ∈ w._eject_cred)
    (h5 : ∀ p ∈ w1._chan, p ≠ none → p ∈ w._chan)
    (h6 : ∀ p ∈ w1._chan_cred, p ≠ none → p ∈ w._chan_cred)
    (h7 : ∀ p ∈ w1._chan_handshake, p ≠ none → p ∈ w._chan_handshake) :
    PartlyAllocated w1 :=
  partlyAllocated_step w w1 [] (by rw [hheap, List.append_nil]) hw
    (fun p hp hne => Or.inl (h1 p hp hne)) (fun p hp hne => Or.inl (h2 p hp hne))
    (fun p hp hne => Or.inl (h3 p hp hne)) (fun p hp hne => Or.inl (h4 p hp hne))
    (fun p hp hne => Or.inl (h5 p hp hne)) (fun p hp hne => Or.inl (h6 p hp hne))
    (fun p hp hne => Or.inl (h7 p hp hne))

theorem partlyAllocated_allocInternalPart (w w1 : Sim) (h : allocInternalPart w = .ok w1)
    (hw : PartlyAllocated w) : PartlyAllocated w1 := by
  unfold allocInternalPart at h
  by_cases hc : w._channels < 0
  · rw [vresize_neg _ _ _ hc] at h
    cases h
  · simp only [vresize_nonneg _ _ _ (not_lt.mp hc), Outcome.ok.injEq] at h
    rw [← h]
    refine partlyAllocated_forRange allocChan partlyAllocated_allocChan _ _ _ ?_
    exact partlyAllocated_of_entries w _ rfl hw (fun _ hp _ => hp) (fun _ hp _ => hp)
      (fun _ hp _ => hp) (fun _ hp _ => hp) (fun p hp hne => mem_resized _ _ _ p hp hne)
      (fun p hp hne => mem_resized _ _ _ p hp hne) (fun p hp hne => mem_resized _ _ _ p hp hne)

theorem partlyAllocated_allocEgressPart (w w1 : Sim) (h : allocEgressPart w = .ok w1)
    (hw : PartlyAllocated w) : PartlyAllocated w1 := by
  unfold allocEgressPart at h
  by_cases hn : w._nodes < 0
  · rw [vresize_neg _ _ _ hn] at h
    cases h
  · simp only [vresize_nonneg _ _ _ (not_lt.mp hn)] at h
    refine partlyAllocated_allocInternalPart _ w1 h ?_
    refine partlyAllocated_forRange allocEgress partlyAllocated_allocEgress _ _ _ ?_
    exact partlyAllocated_of_entries w _ rfl hw (fun _ hp _ => hp) (fun _ hp _ => hp)
      (fun p hp hne => mem_resized _ _ _ p hp hne) (fun p hp hne => mem_resized _ _ _ p hp hne)
      (fun _ hp _ => hp) (fun _ hp _ => hp) (fun _ hp _ => hp)

theorem partlyAllocated_allocLinks (w w1 : Sim) (h : allocLinks w = .ok w1)
    (hw : PartlyAllocated w) : PartlyAllocated w1 := by
  unfold allocLinks at h
  by_cases hn : w._nodes < 0
  · rw [vresize_neg _ _ _ hn] at h
    cases h
  · simp only [vresize_nonneg _ _ _ (not_lt.mp hn)] at h
    refine partlyAllocated_allocEgressPart _ w1 h ?_
    refine partlyAllocated_forRange allocIngress partlyAllocated_allocIngress _ _ _ ?_
    exact partlyAllocated_of_entries w _ rfl hw
      (fun p hp hne => mem_resized _ _ _ p hp hne) (fun p hp hne => mem_resized _ _ _ p hp hne)
      (fun _ hp _ => hp) (fun _ hp _ => hp) (fun _ hp _ => hp) (fun _ hp _ => hp)
      (fun _ hp _ => hp)

theorem partlyAllocated_allocPowerGate (w w1 : Sim) (h : allocPowerGate w = .ok w1)
    (hw : PartlyAllocated w) : PartlyAllocated w1 := by
  unfold allocPowerGate at h
  by_cases hs : w._size < 0
  · rw [vresize_neg _ _ _ hs] at h
    cases h
  · simp only [vresize_nonneg _ _ _ (not_lt.mp hs)] at h
    split at h
    · cases h
    · split at h
      · cases h
      · refine partlyAllocated_allocLinks _ w1 h ?_
        exact partlyAllocated_of_entries w _ rfl hw (fun _ hp _ => hp) (fun _ hp _ => hp)
          (fun _ hp _ => hp) (fun _ hp _ => hp) (fun _ hp _ => hp) (fun _ hp _ => hp)
          (fun _ hp _ => hp)

theorem partlyAllocated_Alloc (w w1 : Sim) (h : _Alloc w = .ok w1)
    (hw : PartlyAllocated w) : PartlyAllocated w1 := by
  unfold _Alloc at h
  split at h
  · cases h
  · by_cases hs : w._size < 0
    · rw [vresize_neg _ _ _ hs] at h
      cases h
    · simp only [vresize_nonneg _ _ _ (not_lt.mp hs)] at h
      refine partlyAllocated_allocPowerGate _ w1 h ?_
      exact partlyAllocated_of_entries w _ rfl hw (fun _ hp _ => hp) (fun _ hp _ => hp)
        (fun _ hp _ => hp) (fun _ hp _ => hp) (fun _ hp _ => hp) (fun _ hp _ => hp)
        (fun _ hp _ => hp)

theorem ne_none_of_mem_map_some (p : Ptr) (n : Nat) (f : Nat → Addr)
    (h : p ∈ (List.range n).map (fun j => some (f j))) : p ≠ none := by
  obtain ⟨j, _, rfl⟩ := List.mem_map.mp h
  exact Option.some_ne_none _

/-- Allocation yields an allocated network: on non-negative counts, off-lists within
range and link vectors without stale entries (empty, as the constructor leaves them),
`_Alloc` returns a state that satisfies `Allocated`; if nothing was registered before,
every registered pointer is live. -/
theorem _Alloc_allocated (w : Sim) (hs : 0 ≤ w._size) (hn : 0 ≤ w._nodes)
    (hc : 0 ≤ w._channels) (hoff : OffListsInRange w) (hw : PartlyAllocated w) :
    ∃ w1, _Alloc w = .ok w1 ∧ Allocated w1 ∧ (w._timed_modules = [] → RegistryLive w1) := by
  obtain ⟨w1, hrun, ⟨i1, i2⟩, ⟨e1, e2⟩, ⟨c1, c2, c3⟩, hr, _, _, ⟨b1, b2, b3, _, b5⟩, _, _⟩ :=
    _Alloc_ok w hs hn hc hoff
  obtain ⟨k1, k2, k3, k4, k5, k6, k7⟩ := partlyAllocated_Alloc w w1 hrun hw
  have hall : Allocated w1 := by
    refine ⟨⟨by rw [b1]; exact hs, by rw [b2]; exact hn, by rw [b3]; exact hc⟩,
      ⟨by rw [b5, b1], ?_, ?_, ?_, ?_, ?_, ?_, ?_⟩, ⟨?_, ?_, ?_, ?_, ?_, ?_, ?_⟩⟩
    · rw [i1, b2]; simp
    · rw [i2, b2]; simp
    · rw [e1, b2]; simp
    · rw [e2, b2]; simp
    · rw [c1, b3]; simp
    · rw [c2, b3]; simp
    · rw [c3, b3]; simp
    · intro p hp
      exact k1 p hp (ne_none_of_mem_map_some p _ _ (i1 ▸ hp))
    · intro p hp
      exact k2 p hp (ne_none_of_mem_map_some p _ _ (i2 ▸ hp))
    · intro p hp
      exact k3 p hp (ne_none_of_mem_map_some p _ _ (e1 ▸ hp))
    · intro p hp
      exact k4 p hp (ne_none_of_mem_map_some p _ _ (e2 ▸ hp))
    · intro p hp
      exact k5 p hp (ne_none_of_mem_map_some p _ _ (c1 ▸ hp))
    · intro p hp
      exact k6 p hp (ne_none_of_mem_map_some p _ _ (c2 ▸ hp))
    · intro p hp
      exact k7 p hp (ne_none_of_mem_map_some p _ _ (c3 ▸ hp))
  refine ⟨w1, hrun, hall, ?_⟩
  intro hreg p hp
  rw [hreg, List.nil_append] at hr
  obtain ⟨hmem, _, _, _⟩ := registry_of_addresses w1 _ _ _ i1 i2 e1 e2 c1 c2 c3 hr
  have hpl : p ∈ w1.links := (hmem p).mp hp
  obtain ⟨_, _, q1, q2, q3, q4, q5, q6, q7⟩ := hall
  simp only [Sim.links, List.mem_append] at hpl
  rcases hpl with (((((hp | hp) | hp) | hp) | hp) | hp) | hp
  · exact isFlitChannel_live w1 p (q1 p hp)
  · exact isCreditChannel_live w1 p (q2 p hp)
  · exact isFlitChannel_live w1 p (q3 p hp)
  · exact isCreditChannel_live w1 p (q4 p hp)
  · exact isFlitChannel_live w1 p (q5 p hp)
  · exact isCreditChannel_live w1 p (q6 p hp)
  · exact isHandshakeChannel_live w1 p (q7 p hp)

end Booksim
